import Mathlib

/-!
# Verification of the stellarr request broker

Shallow embedding of the core of the `stellarr` media-request broker:
the request store and its conditional-fulfillment primitive
(`src/backend/database.py`, `src/backend-lambda/database.py`, interface
`src/shared/database.py`), the Plex payload identity parser
(`src/backend/plex.py`), the webhook reconciliation pipeline and the
library-sync endpoint (`src/shared/app.py`, mirrored by
`src/backend-lambda/main.py`), session tokens, challenge-response auth
ordering, the sliding-window rate limiter, and the Sonarr/Radarr list
endpoints.

Conventions of the embedding:
* Python ints are `Int`; Python truthiness of an optional int
  (`if x:`) is `intT`, of an optional string is `strT`.
* Database rows are records; the stores are association lists keyed the
  way the SQLite UNIQUE constraints / DynamoDB keys dictate.
* Fallible operations return `Option`.
* Outbound effects that the claims observe (TVDB reverse-lookup calls,
  values passed to `send_fulfillment_notification`, PBKDF2 work) are
  made explicit in the return values of the embedded functions.
-/

set_option maxHeartbeats 1000000

namespace Stellarr

/-- Python truthiness of an optional integer (`if x:`): present and nonzero. -/
def intT : Option Int → Bool
  | some v => v != 0
  | none => false

/-- Python truthiness of an optional string (`if s:`): present and nonempty. -/
def strT : Option String → Bool
  | some v => v != ""
  | none => false

/-! ## Data model (spec §3, `src/backend/database.py` schema)

A `Request` row of the `requests` table; `(tmdb_id, media_type)` is the
UNIQUE key (in DynamoDB: partition `media_type`, sort `tmdb_id`). -/

structure Request where
  media_type : String
  tmdb_id : Int
  title : String
  year : Option Int := none
  overview : Option String := none
  poster_path : Option String := none
  imdb_id : Option String := none
  tvdb_id : Option Int := none
  requested_by : Option String := none
  created_at : String := ""
  added_at : Option String := none
  plex_guid : Option String := none
deriving Repr, DecidableEq

/-- A row of the `library` table, key `(tmdb_id, media_type)`. -/
structure LibraryMember where
  media_type : String
  tmdb_id : Int
  tvdb_id : Option Int := none
  title : Option String := none
deriving Repr, DecidableEq

/-- A row of the `plex_guid_cache` table, key `plex_guid`. -/
structure GuidCacheEntry where
  plex_guid : String
  show_tmdb_id : Option Int := none
  show_tvdb_id : Option Int := none
deriving Repr, DecidableEq

/-- The persistent store the reconciliation engine operates on. -/
structure DBState where
  requests : List Request := []
  library : List LibraryMember := []
  guidCache : List GuidCacheEntry := []
deriving Repr, DecidableEq

/-- Key match for a request row (`WHERE tmdb_id = ? AND media_type = ?`). -/
def reqKey (mt : String) (tid : Int) (r : Request) : Bool :=
  r.media_type == mt && r.tmdb_id == tid

/-- Point lookup of a request by its unique key (first matching row). -/
def getRequest (s : DBState) (tid : Int) (mt : String) : Option Request :=
  s.requests.find? (reqKey mt tid)

/-- `added_at` of the request with the given key, when both exist. -/
def addedAtOf (s : DBState) (tid : Int) (mt : String) : Option String :=
  (getRequest s tid mt).bind Request.added_at

/-- The UNIQUE(tmdb_id, media_type) schema constraint: no two rows of the
requests table share a key. -/
def keysUniqueB : List Request → Bool
  | [] => true
  | r :: rs =>
    rs.all (fun q => !(q.media_type == r.media_type && q.tmdb_id == r.tmdb_id)) &&
      keysUniqueB rs

/-! ## Storage operations on requests

`mark_as_added` (src/backend/database.py 143-159: `UPDATE requests SET
added_at = CURRENT_TIMESTAMP WHERE tmdb_id = ? AND media_type = ? AND
added_at IS NULL`; src/backend-lambda/database.py 135-156: DynamoDB
conditional update `attribute_exists(media_type) AND
attribute_not_exists(added_at)`). Success is possible exactly when a row
with the key exists whose `added_at` is NULL. Per the provider interface
(src/shared/database.py 46-48) the operation returns the updated
request (the post-image) or `none`; the SQLite/Lambda variants return
only the success boolean, see `markAsAddedLambda`. -/
def fulfillF (now : String) (tid : Int) (mt : String) (q : Request) : Request :=
  if reqKey mt tid q && q.added_at == none then { q with added_at := some now }
  else q

def markAsAdded (now : String) (tid : Int) (mt : String) (s : DBState) :
    Option Request × DBState :=
  match s.requests.find? (fun r => reqKey mt tid r && r.added_at == none) with
  | some r =>
    (some { r with added_at := some now },
     { s with requests := s.requests.map (fulfillF now tid mt) })
  | none => (none, s)

/-- `mark_as_added` of src/backend-lambda/database.py 135-156: the DynamoDB
variant returns `result is not None`, i.e. only a success boolean — the
post-image of the request is discarded. -/
def markAsAddedLambda (now : String) (tid : Int) (mt : String) (s : DBState) :
    Bool × DBState :=
  let r := markAsAdded now tid mt s
  (r.1.isSome, r.2)

/-- `find_by_tvdb_id` (src/backend/database.py 162-171):
`SELECT * FROM requests WHERE tvdb_id = ? AND media_type = ?`, first row. -/
def findByTvdbId (tvdb : Int) (mt : String) (s : DBState) : Option Request :=
  s.requests.find? (fun r => r.tvdb_id == some tvdb && r.media_type == mt)

/-- `find_by_plex_guid` (src/backend/database.py 174-183):
`SELECT * FROM requests WHERE plex_guid = ?`, first row. -/
def findByPlexGuid (g : String) (s : DBState) : Option Request :=
  s.requests.find? (fun r => r.plex_guid == some g)

/-- `update_plex_guid` (src/backend/database.py 186-202):
`UPDATE requests SET plex_guid = ? WHERE tmdb_id = ? AND media_type = ?`. -/
def guidF (tid : Int) (mt : String) (g : String) (q : Request) : Request :=
  if reqKey mt tid q then { q with plex_guid := some g } else q

def updatePlexGuid (tid : Int) (mt : String) (g : String) (s : DBState) : DBState :=
  { s with requests := s.requests.map (guidF tid mt g) }

/-! ## Library and GUID cache operations -/

/-- One element of the `/sync/library` JSON array:
`{tmdb_id, tvdb_id?, title?}`. A missing / null `tmdb_id` is `none`. -/
structure SyncItem where
  tmdb_id : Option Int := none
  tvdb_id : Option Int := none
  title : Option String := none
deriving Repr, DecidableEq

/-- `INSERT OR REPLACE INTO library` keyed on `(tmdb_id, media_type)`. -/
def libUpsert (mt : String) (it : SyncItem) (lib : List LibraryMember) :
    List LibraryMember :=
  match it.tmdb_id with
  | some tid =>
    (lib.filter fun m => !(m.media_type == mt && m.tmdb_id == tid)) ++
      [{ media_type := mt, tmdb_id := tid, tvdb_id := it.tvdb_id, title := it.title }]
  | none => lib

/-- `sync_library` (src/backend/database.py 207-237). If any item lacks a
usable `tmdb_id` the Python loop raises (`item['tmdb_id']` KeyError, or the
NOT NULL constraint), the exception handler returns 0 and the uncommitted
transaction is rolled back. Otherwise: optionally clear the media-type
partition, upsert every item, return `len(items)`. Requests are untouched. -/
def syncLibrary (items : List SyncItem) (mt : String) (clearFirst : Bool)
    (s : DBState) : Nat × DBState :=
  if items.all (fun it => it.tmdb_id.isSome) then
    let lib0 := if clearFirst then s.library.filter (fun m => m.media_type != mt)
                else s.library
    (items.length, { s with library := items.foldl (fun L it => libUpsert mt it L) lib0 })
  else
    (0, s)

/-- `get_plex_guid_cache` (src/backend/database.py 269-286): the cached
`(show_tmdb_id, show_tvdb_id)` pair for a Plex GUID. -/
def getGuidCache (s : DBState) (g : String) : Option (Option Int × Option Int) :=
  (s.guidCache.find? (fun e => e.plex_guid == g)).map
    (fun e => (e.show_tmdb_id, e.show_tvdb_id))

/-- `set_plex_guid_cache` (src/backend/database.py 289-306):
`INSERT OR REPLACE INTO plex_guid_cache`. Requests are untouched. -/
def setGuidCache (g : String) (tmdb tvdb : Option Int) (s : DBState) : DBState :=
  { s with
    guidCache :=
      (s.guidCache.filter fun e => e.plex_guid != g) ++
        [{ plex_guid := g, show_tmdb_id := tmdb, show_tvdb_id := tvdb }] }

/-! ## Decimal strings

`str(n)` and `int(s)` for the canonical decimal forms the code produces
(timestamps from `str(int(time.time()))`, ids inside `tmdb://<n>` GUIDs).
`int()`'s extra leniencies (surrounding whitespace, `+`, underscores) are
not modelled; they only widen the accepted set and no claim depends on
them. -/

/-- Decimal digit value of a character, `none` for a non-digit. -/
def digitVal? (c : Char) : Option Nat :=
  if '0' ≤ c ∧ c ≤ '9' then some (c.toNat - 48) else none

/-- Digits of `n`, most significant first, prepended to `acc`;
fuel-recursive so that it reduces inside the kernel (`n + 1` units of
fuel always suffice, see `natToCharsFuel_congr`). -/
def natToCharsFuel : Nat → Nat → List Char → List Char
  | 0, _, acc => acc
  | fuel + 1, n, acc =>
    let d := Char.ofNat (48 + n % 10)
    if n < 10 then d :: acc else natToCharsFuel fuel (n / 10) (d :: acc)

/-- `str(n)` for a natural number, as a character list. -/
def natToChars (n : Nat) : List Char := natToCharsFuel (n + 1) n []

/-- Accumulating decimal parse; fails on the first non-digit. -/
def charsToNatCore : Nat → List Char → Option Nat
  | acc, [] => some acc
  | acc, c :: cs =>
    match digitVal? c with
    | some d => charsToNatCore (acc * 10 + d) cs
    | none => none

/-- `int(s)` for an unsigned decimal string; `none` on empty or non-digit. -/
def charsToNat? (cs : List Char) : Option Nat :=
  if cs.isEmpty then none else charsToNatCore 0 cs

/-- `int(s)` for an optionally `-`-signed decimal string. -/
def parsePyInt? : List Char → Option Int
  | '-' :: ds => (charsToNat? ds).map (fun n => -(n : Int))
  | ds => (charsToNat? ds).map Int.ofNat

/-- `s.startswith(pre)`, on character lists. -/
def hasPrefixCh : List Char → List Char → Bool
  | [], _ => true
  | _ :: _, [] => false
  | p :: ps, c :: cs => p == c && hasPrefixCh ps cs

/-! ## Identity parser (src/backend/plex.py) -/

/-- The parsed `PlexMedia` dataclass (src/backend/plex.py 8-19). -/
structure PlexMedia where
  media_type : String
  plex_type : String
  title : String
  year : Option Int
  tmdb_id : Option Int
  tvdb_id : Option Int
  imdb_id : Option String
  plex_guid : Option String
  episode_tvdb_id : Option Int
deriving Repr, DecidableEq

/-- Result of `parse_guid_list`. -/
structure GuidIds where
  tmdb_id : Option Int := none
  tvdb_id : Option Int := none
  imdb_id : Option String := none
deriving Repr, DecidableEq

/-- `parse_guid_list` (src/backend/plex.py 22-55): fold over the `Guid`
array entries (each modelled by its `id` string, `guid.get('id','')`),
keeping the last well-formed value of each scheme; a `ValueError` from
`int()` leaves the slot unchanged. -/
def parseGuidList (guids : List String) : GuidIds :=
  guids.foldl
    (fun acc g =>
      if hasPrefixCh "tmdb://".data g.data then
        match parsePyInt? (g.data.drop 7) with
        | some n => { acc with tmdb_id := some n }
        | none => acc
      else if hasPrefixCh "tvdb://".data g.data then
        match parsePyInt? (g.data.drop 7) with
        | some n => { acc with tvdb_id := some n }
        | none => acc
      else if hasPrefixCh "imdb://".data g.data then
        { acc with imdb_id := some (String.mk (g.data.drop 7)) }
      else acc)
    {}

/-- `payload['Metadata']` as used by the parser and the webhook:
`metadata.get(key, default)` is modelled by `Option` fields. -/
structure PlexMetadata where
  type : String := ""
  title : Option String := none
  year : Option Int := none
  parentTitle : Option String := none
  parentYear : Option Int := none
  grandparentTitle : Option String := none
  grandparentYear : Option Int := none
  guid : Option String := none
  parentGuid : Option String := none
  grandparentGuid : Option String := none
  guidIds : List String := []
deriving Repr, DecidableEq

/-- A Plex webhook payload: `event`, `Server.title`
(`data.get('Server', {}).get('title', 'unknown')`), and `Metadata`. -/
structure PlexPayload where
  event : String := ""
  serverTitle : String := "unknown"
  metadata : PlexMetadata := {}
deriving Repr, DecidableEq

/-- `parse_plex_payload` (src/backend/plex.py 58-139). For an `episode`
only the tvdb id is moved to `episode_tvdb_id` (guarded by Python
truthiness of the id); the tmdb id from the Guid array is left in place.
For a `season` both tmdb and tvdb ids are cleared. -/
def parsePlexPayload (payload : PlexPayload) : Option PlexMedia :=
  let md := payload.metadata
  let ids := parseGuidList md.guidIds
  let mk (media_type title : String) (year : Option Int)
      (plex_guid : Option String) (ids : GuidIds)
      (episode_tvdb_id : Option Int) : PlexMedia :=
    { media_type, plex_type := md.type, title, year,
      tmdb_id := ids.tmdb_id, tvdb_id := ids.tvdb_id, imdb_id := ids.imdb_id,
      plex_guid, episode_tvdb_id }
  if md.type == "movie" then
    some (mk "movie" (md.title.getD "Unknown") md.year md.guid ids none)
  else if md.type == "show" then
    some (mk "tv" (md.title.getD "Unknown") md.year md.guid ids none)
  else if md.type == "season" then
    some (mk "tv" (md.parentTitle.getD "Unknown") md.parentYear md.parentGuid
      { ids with tmdb_id := none, tvdb_id := none } none)
  else if md.type == "episode" then
    if intT ids.tvdb_id then
      some (mk "tv" (md.grandparentTitle.getD "Unknown") md.grandparentYear
        md.grandparentGuid { ids with tvdb_id := none } ids.tvdb_id)
    else
      some (mk "tv" (md.grandparentTitle.getD "Unknown") md.grandparentYear
        md.grandparentGuid ids none)
  else
    none

/-! ## Webhook reconciliation pipeline (src/shared/app.py 805-968;
the same pipeline appears in src/backend-lambda/main.py 869-1053). -/

/-- Static configuration and external collaborators of the pipeline:
* `serverName` — `settings.plex_server_name` (optional filter),
* `tvdbLookup` — outcome of `tvdb.get_series_id_from_episode` (HTTP;
  `none` for 404 / error / missing API key, per src/shared/tvdb.py),
* `findTitle` — `db.find_by_title`. Modelled from the spec: the spec's
  title-fallback (normalize title, unique match, year ±1) lives in
  `providers/aws/database.py`, which is not under src/ (only the
  Protocol stub in src/shared/database.py 106-108 is), so the engine is
  verified for an arbitrary read-only implementation,
* `now` — the fulfillment timestamp `mark_as_added` writes. -/
structure WebhookConfig where
  serverName : Option String := none
  tvdbLookup : Int → Option Int := fun _ => none
  findTitle : String → String → Option Int → List Request → Option Request :=
    fun _ _ _ _ => none
  now : String := ""

/-- Accumulator threaded through the five match strategies. -/
structure MatchAcc where
  matched : Option Request
  s : DBState
  tvdbCalls : Nat
  addedToLibrary : Bool
deriving Repr

/-- Strategy 1 (src/shared/app.py 874-881): conditional fulfillment by
show-level TMDB id; on success cache the Plex GUID. -/
def strat1 (cfg : WebhookConfig) (media : PlexMedia)
    (showTmdb showTvdb : Option Int) (acc : MatchAcc) : MatchAcc :=
  match showTmdb with
  | some tid =>
    if tid != 0 then
      match markAsAdded cfg.now tid media.media_type acc.s with
      | (some m, s1) =>
        let s2 :=
          if strT media.plex_guid then
            let g := (media.plex_guid).getD ""
            setGuidCache g showTmdb showTvdb (updatePlexGuid tid media.media_type g s1)
          else s1
        { acc with matched := some m, s := s2 }
      | (none, s1) => { acc with s := s1 }
    else acc
  | none => acc

/-- Strategy 2 (src/shared/app.py 883-892): look up a request by
show-level TVDB id (tv only), then conditional fulfillment on its tmdb id. -/
def strat2 (cfg : WebhookConfig) (media : PlexMedia)
    (showTvdb : Option Int) (acc : MatchAcc) : MatchAcc :=
  if acc.matched.isSome then acc
  else
    match showTvdb with
    | some tvdb =>
      if tvdb != 0 && media.media_type == "tv" then
        match findByTvdbId tvdb media.media_type acc.s with
        | some fr =>
          match markAsAdded cfg.now fr.tmdb_id media.media_type acc.s with
          | (some m, s1) =>
            let s2 :=
              if strT media.plex_guid then
                let g := (media.plex_guid).getD ""
                setGuidCache g (some fr.tmdb_id) showTvdb
                  (updatePlexGuid fr.tmdb_id media.media_type g s1)
              else s1
            { acc with matched := some m, s := s2 }
          | (none, s1) => { acc with s := s1 }
        | none => acc
      else acc
    | none => acc

/-- Strategy 3 (src/shared/app.py 894-902): look up a request by the
webhook's Plex GUID; on success refresh the GUID cache unless the show ids
already came from it. -/
def strat3 (cfg : WebhookConfig) (media : PlexMedia)
    (resolvedFromCache : Bool) (acc : MatchAcc) : MatchAcc :=
  if acc.matched.isSome then acc
  else if strT media.plex_guid then
    let g := (media.plex_guid).getD ""
    match findByPlexGuid g acc.s with
    | some fr =>
      match markAsAdded cfg.now fr.tmdb_id fr.media_type acc.s with
      | (some m, s1) =>
        let s2 :=
          if !resolvedFromCache then
            setGuidCache g (some fr.tmdb_id) fr.tvdb_id s1
          else s1
        { acc with matched := some m, s := s2 }
      | (none, s1) => { acc with s := s1 }
    | none => acc
  else acc

/-- Strategy 4 (src/shared/app.py 904-928): TVDB episode-to-series
reverse lookup. The guard checks only that no strategy matched yet and
that an episode tvdb id is present; it does not consult the GUID cache,
so the outbound TVDB call is counted whenever this branch is entered. -/
def strat4 (cfg : WebhookConfig) (media : PlexMedia)
    (resolvedFromCache : Bool) (acc : MatchAcc) : MatchAcc :=
  if acc.matched.isSome then acc
  else
    match media.episode_tvdb_id with
    | some ep =>
      if ep != 0 then
        let acc := { acc with tvdbCalls := acc.tvdbCalls + 1 }
        match cfg.tvdbLookup ep with
        | some resolved =>
          if resolved != 0 then
            -- the trailing `if media.plex_guid and not resolved_from_cache`
            -- cache write of the source is inlined into each branch
            match findByTvdbId resolved "tv" acc.s with
            | some fr' =>
              match markAsAdded cfg.now fr'.tmdb_id "tv" acc.s with
              | (some m', s') =>
                let s'' :=
                  if strT media.plex_guid then
                    let g := (media.plex_guid).getD ""
                    setGuidCache g (some fr'.tmdb_id) (some resolved)
                      (updatePlexGuid fr'.tmdb_id "tv" g s')
                  else s'
                let s2 :=
                  if strT media.plex_guid && !resolvedFromCache then
                    setGuidCache ((media.plex_guid).getD "") (some fr'.tmdb_id)
                      (some resolved) s''
                  else s''
                { acc with matched := some m', s := s2 }
              | (none, s') =>
                let s2 :=
                  if strT media.plex_guid && !resolvedFromCache then
                    setGuidCache ((media.plex_guid).getD "") (some fr'.tmdb_id)
                      (some resolved) s'
                  else s'
                { acc with s := s2 }
            | none =>
              let s2 :=
                if strT media.plex_guid && !resolvedFromCache then
                  setGuidCache ((media.plex_guid).getD "") none (some resolved) acc.s
                else acc.s
              { acc with s := s2 }
          else acc
        | none => acc
      else acc
    | none => acc

/-- Strategy 5 (src/shared/app.py 930-948): title fallback when no show
ids are known; on success additionally upsert a LibraryMember. -/
def strat5 (cfg : WebhookConfig) (media : PlexMedia)
    (showTmdb showTvdb : Option Int) (acc : MatchAcc) : MatchAcc :=
  if acc.matched.isSome || intT showTmdb || intT showTvdb then acc
  else
    match cfg.findTitle media.title media.media_type media.year acc.s.requests with
    | some fr =>
      match markAsAdded cfg.now fr.tmdb_id media.media_type acc.s with
      | (some m, s1) =>
        let s2 := (syncLibrary
          [{ tmdb_id := some fr.tmdb_id, tvdb_id := fr.tvdb_id,
             title := some media.title }] media.media_type false s1).2
        let s3 :=
          if strT media.plex_guid then
            let g := (media.plex_guid).getD ""
            setGuidCache g (some fr.tmdb_id) fr.tvdb_id
              (updatePlexGuid fr.tmdb_id media.media_type g s2)
          else s2
        { acc with matched := some m, s := s3, addedToLibrary := true }
      | (none, s1) => { acc with s := s1 }
    | none => acc

/-- Result of the `/webhook/plex` handler. `notifierArgs` records the
values passed to `send_fulfillment_notification` (src/shared/app.py
950-953: exactly the matched request's post-image when a strategy
fulfilled a request, nothing otherwise). -/
structure WebhookOutcome where
  status : String
  state : DBState
  tvdbCalls : Nat
  addedToLibrary : Bool
  matchedRequest : Option Request
  notifierArgs : List Request
deriving Repr

/-- `plex_webhook` (src/shared/app.py 805-968), after token check and
JSON decoding. -/
def plexWebhook (cfg : WebhookConfig) (payload : PlexPayload) (s : DBState) :
    WebhookOutcome :=
  let ignored : WebhookOutcome :=
    { status := "ignored", state := s, tvdbCalls := 0, addedToLibrary := false,
      matchedRequest := none, notifierArgs := [] }
  if payload.event != "library.new" then ignored
  else if strT cfg.serverName && payload.serverTitle != cfg.serverName.getD "" then
    ignored
  else
    match parsePlexPayload payload with
    | none => ignored
    | some media =>
      -- show-id resolution for episode/season via the GUID cache
      let cacheRes : Option Int × Option Int × Bool :=
        if (media.plex_type == "episode" || media.plex_type == "season") &&
            strT media.plex_guid then
          match getGuidCache s ((media.plex_guid).getD "") with
          | some (ct, cv) => (ct, cv, true)
          | none => (none, none, false)
        else (media.tmdb_id, media.tvdb_id, false)
      let showTmdb := cacheRes.1
      let showTvdb := cacheRes.2.1
      let resolvedFromCache := cacheRes.2.2
      -- library membership upsert when a show-level tmdb id is known
      let addedToLibrary := intT showTmdb
      let s1 :=
        if intT showTmdb then
          (syncLibrary
            [{ tmdb_id := showTmdb, tvdb_id := showTvdb,
               title := some media.title }] media.media_type false s).2
        else s
      let acc0 : MatchAcc :=
        { matched := none, s := s1, tvdbCalls := 0, addedToLibrary }
      let acc :=
        strat5 cfg media showTmdb showTvdb
          (strat4 cfg media resolvedFromCache
            (strat3 cfg media resolvedFromCache
              (strat2 cfg media showTvdb
                (strat1 cfg media showTmdb showTvdb acc0))))
      { status := "success", state := acc.s, tvdbCalls := acc.tvdbCalls,
        addedToLibrary := acc.addedToLibrary, matchedRequest := acc.matched,
        notifierArgs := acc.matched.toList }

/-! ## Library-sync endpoint (src/shared/app.py 975-1017;
src/backend-lambda/main.py 1058-1114). -/

/-- Result of `/sync/library`. As in the webhook, `notifierArgs` records
every value passed to `send_fulfillment_notification`; the sync handler
contains no call to it. -/
structure SyncOutcome where
  statusCode : Nat
  state : DBState
  synced : Nat
  marked : Nat
  notifierArgs : List Request
deriving Repr

/-- One iteration of the marking loop of `sync_library_endpoint`:
`if tmdb_id: if db.mark_as_added(tmdb_id, media_type): marked += 1`. -/
def syncStep (now mt : String) (p : Nat × DBState) (it : SyncItem) :
    Nat × DBState :=
  if intT it.tmdb_id then
    match markAsAdded now (it.tmdb_id.getD 0) mt p.2 with
    | (some _, s') => (p.1 + 1, s')
    | (none, s') => (p.1, s')
  else p

/-- `sync_library_endpoint`: validate media type, upsert the posted
items, then `mark_as_added` for each item with a truthy `tmdb_id`,
counting successes; returns the synced and marked counts. -/
def syncLibraryEndpoint (now : String) (mt : String) (clear : Bool)
    (items : List SyncItem) (s : DBState) : SyncOutcome :=
  if mt != "movie" && mt != "tv" then
    { statusCode := 400, state := s, synced := 0, marked := 0, notifierArgs := [] }
  else
    let sync := syncLibrary items mt clear s
    let res := items.foldl (syncStep now mt) (0, sync.2)
    { statusCode := 200, state := res.2, synced := sync.1, marked := res.1,
      notifierArgs := [] }

/-! ## Operation sequences over the store (for the `added_at` invariant). -/

/-- The operations of claim C1 that touch the request store. -/
inductive Op where
  | webhook (payload : PlexPayload)
  | syncOp (mt : String) (clear : Bool) (items : List SyncItem)
  | updateGuid (tid : Int) (mt : String) (g : String)
  | markOp (tid : Int) (mt : String)

/-- Effect of one operation on the store. -/
def applyOp (cfg : WebhookConfig) (op : Op) (s : DBState) : DBState :=
  match op with
  | .webhook payload => (plexWebhook cfg payload s).state
  | .syncOp mt clear items => (syncLibraryEndpoint cfg.now mt clear items s).state
  | .updateGuid tid mt g => updatePlexGuid tid mt g s
  | .markOp tid mt => (markAsAdded cfg.now tid mt s).2

/-- Effect of a sequence of operations. -/
def runOps (cfg : WebhookConfig) (ops : List Op) (s : DBState) : DBState :=
  ops.foldl (fun st op => applyOp cfg op st) s

/-! ## Sliding-window rate limiter (src/backend-lambda/database.py 212-311)

Every operation touches only the single item keyed `RATELIMIT#<ip>`, so
the state relevant to one IP is the optional bucket for that IP. -/

/-- The rate-limit item: counter, window anchor, bookkeeping. -/
structure RLEntry where
  failed_attempts : Nat
  first_attempt : Int
  last_attempt : Int
  ttl : Int
deriving Repr, DecidableEq

/-- `check_rate_limit` (src/backend-lambda/database.py 212-244): absent
bucket → allowed; expired window (`now - first_attempt > window`) →
allowed; `failed_attempts ≥ max_attempts` → denied; otherwise allowed
with the remaining budget. -/
def checkRateLimit (bucket : Option RLEntry) (now : Int)
    (maxAttempts windowSeconds : Nat) : Bool × Nat :=
  match bucket with
  | none => (true, maxAttempts)
  | some e =>
    if now - e.first_attempt > windowSeconds then (true, maxAttempts)
    else if e.failed_attempts ≥ maxAttempts then (false, 0)
    else (true, maxAttempts - e.failed_attempts)

/-- `record_failed_attempt` (src/backend-lambda/database.py 247-297):
atomic `failed_attempts += 1` with `if_not_exists` defaults, then a clean
reset `put` when the incremented item's window has already passed.
Returns the new failure count. -/
def recordFailedAttempt (bucket : Option RLEntry) (now : Int)
    (windowSeconds : Nat) : Nat × Option RLEntry :=
  let ttl := now + windowSeconds + 60
  let updated : RLEntry :=
    match bucket with
    | none =>
      { failed_attempts := 1, first_attempt := now, last_attempt := now, ttl }
    | some e =>
      { e with failed_attempts := e.failed_attempts + 1, last_attempt := now, ttl }
  if now - updated.first_attempt > windowSeconds then
    (1, some { failed_attempts := 1, first_attempt := now, last_attempt := now, ttl })
  else
    (updated.failed_attempts, some updated)

/-- `clear_rate_limit` (src/backend-lambda/database.py 300-311): delete. -/
def clearRateLimit (_bucket : Option RLEntry) : Option RLEntry := none

/-- A sequence of failed attempts folded over one IP's bucket. -/
def recordMany (times : List Int) (windowSeconds : Nat)
    (bucket : Option RLEntry) : Option RLEntry :=
  times.foldl (fun b t => (recordFailedAttempt b t windowSeconds).2) bucket

/-! ## `/api/auth/verify` (src/shared/app.py 402-447;
src/backend-lambda/main.py 336-382) -/

/-- Work the handler performs, in execution order. `pbkdf2` stands for
the `verify_challenge_hash` PBKDF2 derivation (src/shared/app.py
305-318). -/
inductive AuthEvent where
  | rateCheck
  | pbkdf2
  | recordFail
  | clearLimit
deriving Repr, DecidableEq

/-- Outcome of a `/api/auth/verify` call. -/
structure AuthResult where
  statusCode : Nat
  events : List AuthEvent
  bucket : Option RLEntry
deriving Repr, DecidableEq

/-- `AUTH_TIME_WINDOW_SECONDS = 300`. -/
def AUTH_TIME_WINDOW_SECONDS : Nat := 300

/-- `verify_auth`: rate-limit check first (when enabled), then the
timestamp-skew check, and only then the PBKDF2 hash verification;
failures record an attempt, success clears the bucket. `hashOk` is the
boolean outcome of `verify_challenge_hash` (the PBKDF2 computation
itself is opaque to these claims; only whether it runs is observed) and
`nameOk` the outcome of the `1 ≤ len(name.strip()) ≤ 50` check. -/
def verifyAuth (enabled : Bool) (maxAttempts windowSeconds : Nat)
    (hashOk nameOk : Bool) (now timestamp : Int)
    (bucket : Option RLEntry) : AuthResult :=
  let events : List AuthEvent := if enabled then [.rateCheck] else []
  if enabled && !(checkRateLimit bucket now maxAttempts windowSeconds).1 then
    { statusCode := 429, events, bucket }
  else if (now - timestamp).natAbs > AUTH_TIME_WINDOW_SECONDS then
    { statusCode := 401, events, bucket }
  else
    let events := events ++ [.pbkdf2]
    if !hashOk then
      if enabled then
        { statusCode := 401, events := events ++ [.recordFail],
          bucket := (recordFailedAttempt bucket now windowSeconds).2 }
      else
        { statusCode := 401, events, bucket }
    else if !nameOk then
      { statusCode := 400, events, bucket }
    else if enabled then
      { statusCode := 200, events := events ++ [.clearLimit],
        bucket := clearRateLimit bucket }
    else
      { statusCode := 200, events, bucket }

/-! ## Session tokens (src/shared/app.py 156-242)

`base64.urlsafe_b64encode(...).rstrip("=")` / `urlsafe_b64decode` with
padding restored, on byte lists (names are modelled as their UTF-8
bytes). Tokens are character lists; the `"Bearer "` scheme split that
both `verify_session_token` and `get_user_from_token` perform on the
Authorization header is common to all consumers and elided — the
functions below receive the bearer token itself. -/

/-- The URL-safe base64 alphabet. -/
def b64Alphabet : List Char :=
  "ABCDEFGHIJKLMNOPQRSTUVWXYZabcdefghijklmnopqrstuvwxyz0123456789-_".data

/-- Character for a 6-bit value. -/
def b64Char (i : Nat) : Char := b64Alphabet.getD i 'A'

/-- 6-bit value of an alphabet character, `none` outside the alphabet. -/
def b64Val? (c : Char) : Option Nat :=
  b64Alphabet.indexOf? c

/-- `urlsafe_b64encode` without padding: 3 bytes → 4 chars, a final
1-byte group → 2 chars, a final 2-byte group → 3 chars. -/
def b64urlEncode : List Nat → List Char
  | [] => []
  | [a] => [b64Char (a / 4), b64Char (a % 4 * 16)]
  | [a, b] => [b64Char (a / 4), b64Char (a % 4 * 16 + b / 16), b64Char (b % 16 * 4)]
  | a :: b :: c :: rest =>
    b64Char (a / 4) :: b64Char (a % 4 * 16 + b / 16) ::
      b64Char (b % 16 * 4 + c / 64) :: b64Char (c % 64) :: b64urlEncode rest

/-- `urlsafe_b64decode` after padding restoration: 4 chars → 3 bytes,
a final 2-char group → 1 byte, a final 3-char group → 2 bytes; anything
else (a lone trailing char, a non-alphabet char) raises, i.e. `none`. -/
def b64urlDecode : List Char → Option (List Nat)
  | [] => some []
  | [_] => none
  | [w, x] => do
    let vw ← b64Val? w
    let vx ← b64Val? x
    pure [vw * 4 + vx / 16]
  | [w, x, y] => do
    let vw ← b64Val? w
    let vx ← b64Val? x
    let vy ← b64Val? y
    pure [vw * 4 + vx / 16, vx % 16 * 16 + vy / 4]
  | w :: x :: y :: z :: rest => do
    let vw ← b64Val? w
    let vx ← b64Val? x
    let vy ← b64Val? y
    let vz ← b64Val? z
    let tail ← b64urlDecode rest
    pure ([vw * 4 + vx / 16, vx % 16 * 16 + vy / 4, vy % 4 * 64 + vz] ++ tail)

/-- `token.split(".")` (Python `str.split` keeps empty parts). -/
def splitDots : List Char → List (List Char)
  | [] => [[]]
  | c :: cs =>
    if c = '.' then [] :: splitDots cs
    else
      match splitDots cs with
      | [] => [[c]]
      | p :: ps => (c :: p) :: ps

/-- `SESSION_DURATION_SECONDS = 30 * 24 * 60 * 60`. -/
def SESSION_DURATION_SECONDS : Int := 30 * 24 * 60 * 60

/-- `create_session_token` (src/shared/app.py 156-169). `mac` is
`HMAC-SHA256(app_secret_key, ·)` with the server's fixed secret folded
in; `now` is `int(time.time())`; the name is its UTF-8 byte list
(`name.encode()`), empty string falsy. -/
def createSessionToken (mac : List Char → List Nat) (now : Nat)
    (name : List Nat) : List Char :=
  let nameB64 := if name.isEmpty then [] else b64urlEncode name
  let payload := natToChars now ++ '.' :: nameB64
  payload ++ '.' :: b64urlEncode (mac payload)

/-- `verify_session_token` (src/shared/app.py 172-214): accept a 3-part
`timestamp.name.sig` or legacy 2-part `timestamp.sig` token whose
timestamp parses, is not older than 30 days (no lower bound on the
difference), and whose signature matches the recomputed HMAC. -/
def verifySessionToken (mac : List Char → List Nat) (now : Int)
    (token : List Char) : Bool :=
  let check := fun (tsStr payload sig : List Char) =>
    match charsToNat? tsStr with
    | none => false
    | some ts =>
      if now - (ts : Int) > SESSION_DURATION_SECONDS then false
      else sig == b64urlEncode (mac payload)
  match splitDots token with
  | [tsStr, nameB64, sig] => check tsStr (tsStr ++ '.' :: nameB64) sig
  | [tsStr, sig] => check tsStr tsStr sig
  | _ => false

/-- `get_user_from_token` (src/shared/app.py 217-242): only a 3-part
token with a nonempty name field yields a user; the name field is
base64-decoded (padding restored), errors → `none`. The final UTF-8
`.decode()` is the identity on the byte lists modelled here. -/
def getUserFromToken (token : List Char) : Option (List Nat) :=
  match splitDots token with
  | [_, nameB64, _] =>
    if nameB64.isEmpty then none else b64urlDecode nameB64
  | _ => none

/-- `POST /api/push/subscribe` (src/shared/app.py 622-641): 401 when
`get_user_from_token` yields no user, otherwise store the subscription
and return 200. -/
def subscribePushStatus (token : List Char) : Nat :=
  match getUserFromToken token with
  | none => 401
  | some _ => 200

/-- `DELETE /api/push/subscribe` (src/shared/app.py 644-653). -/
def unsubscribePushStatus (token : List Char) : Nat :=
  match getUserFromToken token with
  | none => 401
  | some _ => 200

/-! ## Sonarr/Radarr list endpoints (src/shared/app.py 722-755) -/

/-- Code-point lexicographic `≤` on strings (Python's string order). -/
def strLeB : List Char → List Char → Bool
  | [], _ => true
  | _ :: _, [] => false
  | a :: as, b :: bs => if a = b then strLeB as bs else decide (a.toNat < b.toNat)

/-- Insertion step of the `created_at`-descending sort. -/
def insertByCreated (r : Request) : List Request → List Request
  | [] => [r]
  | x :: xs => if strLeB x.created_at.data r.created_at.data then r :: x :: xs
               else x :: insertByCreated r xs

/-- `sorted by created_at descending` (`items.sort(key=..., reverse=True)`).
Order is irrelevant to the feed-filter claims; the permutation property
is all that is used. -/
def sortByCreatedDesc (l : List Request) : List Request :=
  l.foldr insertByCreated []

/-- `get_all_requests(media_type)` (src/backend/database.py 115-129):
all request rows for the media type, sorted by `created_at` descending. -/
def getAllRequests (s : DBState) (mt : String) : List Request :=
  sortByCreatedDesc (s.requests.filter (fun r => r.media_type == mt))

/-- One element of the `/list/radarr` response. -/
structure RadarrItem where
  title : String
  imdb_id : Option String := none
  poster_url : Option String := none
deriving Repr, DecidableEq

/-- Rendering of one pending movie request (src/shared/app.py 730-738). -/
def renderRadarr (r : Request) : RadarrItem :=
  { title :=
      match r.year with
      | some y => if y ≠ 0 then r.title ++ " (" ++ toString y ++ ")" else r.title
      | none => r.title,
    imdb_id := if strT r.imdb_id then r.imdb_id else none,
    poster_url :=
      if strT r.poster_path then
        some ("https://image.tmdb.org/t/p/w300" ++ r.poster_path.getD "")
      else none }

/-- `GET /list/radarr` (src/shared/app.py 722-740): pending movie
requests, rendered. -/
def listRadarr (s : DBState) : List RadarrItem :=
  ((getAllRequests s "movie").filter (fun r => r.added_at == none)).map renderRadarr

/-- One element of the `/list/sonarr` response: a single string field. -/
structure SonarrItem where
  tvdbId : String
deriving Repr, DecidableEq

/-- `GET /list/sonarr` (src/shared/app.py 743-755): pending tv requests
with a truthy `tvdb_id`, each rendered as `{"tvdbId": str(tvdb_id)}`. -/
def listSonarr (s : DBState) : List SonarrItem :=
  ((getAllRequests s "tv").filter (fun r => r.added_at == none)).filterMap
    (fun r =>
      match r.tvdb_id with
      | some v => if v ≠ 0 then some ⟨toString v⟩ else none
      | none => none)

/-! ## Generic list lemmas -/

theorem find?_map_eq {α : Type} (l : List α) (f : α → α) (p : α → Bool)
    (hp : ∀ a, p (f a) = p a) : (l.map f).find? p = (l.find? p).map f := by
  induction l with
  | nil => rfl
  | cons a l ih =>
    simp only [List.map_cons, List.find?]
    rw [hp a]
    cases hpa : p a with
    | true => rfl
    | false => exact ih

theorem keysUniqueB_map (l : List Request) (f : Request → Request)
    (hf : ∀ r, (f r).media_type = r.media_type ∧ (f r).tmdb_id = r.tmdb_id) :
    keysUniqueB (l.map f) = keysUniqueB l := by
  induction l with
  | nil => rfl
  | cons r l ih =>
    simp only [List.map_cons, keysUniqueB, List.all_map, Function.comp_def]
    rw [ih]
    congr 1
    refine congrArg (List.all l) ?_
    funext q
    rw [(hf q).1, (hf q).2, (hf r).1, (hf r).2]

theorem keysUniqueB_eq_of_mem {l : List Request} (hu : keysUniqueB l = true)
    {q r : Request} (hq : q ∈ l) (hr : r ∈ l)
    (hmt : q.media_type = r.media_type) (hid : q.tmdb_id = r.tmdb_id) : q = r := by
  induction l with
  | nil => cases hq
  | cons x xs ih =>
    simp only [keysUniqueB, Bool.and_eq_true, List.all_eq_true] at hu
    rcases List.mem_cons.mp hq with rfl | hq' <;>
      rcases List.mem_cons.mp hr with rfl | hr'
    · rfl
    · have := hu.1 r hr'
      simp only [Bool.not_eq_true', Bool.and_eq_false_iff, beq_eq_false_iff_ne] at this
      rcases this with h | h
      · exact absurd hmt.symm h
      · exact absurd hid.symm h
    · have := hu.1 q hq'
      simp only [Bool.not_eq_true', Bool.and_eq_false_iff, beq_eq_false_iff_ne] at this
      rcases this with h | h
      · exact absurd hmt h
      · exact absurd hid h
    · exact ih hu.2 hq' hr'

/-! ## Facts about the key predicate -/

theorem reqKey_iff {mt : String} {tid : Int} {r : Request} :
    reqKey mt tid r = true ↔ r.media_type = mt ∧ r.tmdb_id = tid := by
  simp [reqKey]

theorem reqKey_congr {f : Request → Request}
    (hf : ∀ r, (f r).media_type = r.media_type ∧ (f r).tmdb_id = r.tmdb_id)
    (mt : String) (tid : Int) (a : Request) :
    reqKey mt tid (f a) = reqKey mt tid a := by
  unfold reqKey
  rw [(hf a).1, (hf a).2]

theorem fulfillF_key (now : String) (tid : Int) (mt : String) (q : Request) :
    (fulfillF now tid mt q).media_type = q.media_type ∧
      (fulfillF now tid mt q).tmdb_id = q.tmdb_id := by
  unfold fulfillF; split <;> simp

theorem fulfillF_of_added {now : String} {tid : Int} {mt : String} {q : Request}
    {t : String} (h : q.added_at = some t) : fulfillF now tid mt q = q := by
  unfold fulfillF
  have : (q.added_at == none) = false := by simp [h]
  simp [this]

theorem guidF_key (tid : Int) (mt : String) (g : String) (q : Request) :
    (guidF tid mt g q).media_type = q.media_type ∧
      (guidF tid mt g q).tmdb_id = q.tmdb_id := by
  unfold guidF; split <;> simp

theorem guidF_added (tid : Int) (mt : String) (g : String) (q : Request) :
    (guidF tid mt g q).added_at = q.added_at := by
  unfold guidF; split <;> simp

theorem markAsAdded_requests (now : String) (tid : Int) (mt : String)
    (s : DBState) :
    (markAsAdded now tid mt s).2.requests = s.requests ∨
      (markAsAdded now tid mt s).2.requests =
        s.requests.map (fulfillF now tid mt) := by
  unfold markAsAdded
  cases h : s.requests.find? (fun r => reqKey mt tid r && r.added_at == none) with
  | none => exact Or.inl rfl
  | some r => exact Or.inr rfl

theorem updatePlexGuid_requests (tid : Int) (mt : String) (g : String)
    (s : DBState) :
    (updatePlexGuid tid mt g s).requests = s.requests.map (guidF tid mt g) := rfl

theorem syncLibrary_requests (items : List SyncItem) (mt : String) (c : Bool)
    (s : DBState) : (syncLibrary items mt c s).2.requests = s.requests := by
  unfold syncLibrary; split <;> rfl

theorem setGuidCache_requests (g : String) (a b : Option Int) (s : DBState) :
    (setGuidCache g a b s).requests = s.requests := rfl

/-! ## Frozen fulfilled rows

A request row whose `added_at` is already set is never modified by the
engine. `FrozenAt` packages the key-uniqueness schema invariant with the
point lookup; each operation preserves it. -/

def FrozenAt (tid : Int) (mt : String) (r : Request) (s : DBState) : Prop :=
  keysUniqueB s.requests = true ∧ getRequest s tid mt = some r

theorem frozen_markAsAdded {tid : Int} {mt : String} {r : Request} {s : DBState}
    {t : String} (hfr : FrozenAt tid mt r s) (hr : r.added_at = some t)
    (now : String) (i : Int) (m : String) :
    FrozenAt tid mt r (markAsAdded now i m s).2 := by
  obtain ⟨hu, hg⟩ := hfr
  rcases markAsAdded_requests now i m s with h | h
  · exact ⟨by rw [h]; exact hu, by unfold getRequest at hg ⊢; rw [h]; exact hg⟩
  · constructor
    · rw [h, keysUniqueB_map _ _ (fulfillF_key now i m)]; exact hu
    · unfold getRequest at hg ⊢
      rw [h, find?_map_eq _ _ _ (reqKey_congr (fulfillF_key now i m) mt tid)]
      rw [hg]
      simp only [Option.map_some']
      rw [fulfillF_of_added hr]

theorem frozen_updatePlexGuid {tid : Int} {mt : String} {r : Request}
    {s : DBState} (hfr : FrozenAt tid mt r s) {i : Int} {m : String}
    (hne : ¬(m = mt ∧ i = tid)) (g : String) :
    FrozenAt tid mt r (updatePlexGuid i m g s) := by
  obtain ⟨hu, hg⟩ := hfr
  constructor
  · rw [updatePlexGuid_requests, keysUniqueB_map _ _ (guidF_key i m g)]; exact hu
  · unfold getRequest at hg ⊢
    rw [updatePlexGuid_requests, find?_map_eq _ _ _ (reqKey_congr (guidF_key i m g) mt tid)]
    rw [hg]
    simp only [Option.map_some']
    congr 1
    have hk := List.find?_some hg
    rw [reqKey_iff] at hk
    have hfalse : reqKey m i r = false := by
      cases hkk : reqKey m i r
      · rfl
      · rw [reqKey_iff] at hkk
        exact absurd ⟨hkk.1.symm.trans hk.1, hkk.2.symm.trans hk.2⟩ hne
    unfold guidF
    simp [hfalse]

theorem frozen_setGuidCache {tid : Int} {mt : String} {r : Request}
    {s : DBState} (hfr : FrozenAt tid mt r s) (g : String) (a b : Option Int) :
    FrozenAt tid mt r (setGuidCache g a b s) := by
  obtain ⟨hu, hg⟩ := hfr
  exact ⟨hu, hg⟩

theorem frozen_syncLibrary {tid : Int} {mt : String} {r : Request}
    {s : DBState} (hfr : FrozenAt tid mt r s) (items : List SyncItem)
    (m : String) (c : Bool) :
    FrozenAt tid mt r (syncLibrary items m c s).2 := by
  obtain ⟨hu, hg⟩ := hfr
  refine ⟨?_, ?_⟩
  · rw [syncLibrary_requests]; exact hu
  · unfold getRequest at hg ⊢; rw [syncLibrary_requests]; exact hg

/-- A successful `markAsAdded` pinpoints a pending row with the written
key; with unique keys it cannot be the key of a fulfilled row. -/
theorem markAsAdded_success_key_ne {now : String} {i : Int} {m : String}
    {s : DBState} {x : Request} (hs : (markAsAdded now i m s).1 = some x)
    {tid : Int} {mt : String} {r : Request} (hfr : FrozenAt tid mt r s)
    {t : String} (hr : r.added_at = some t) : ¬(m = mt ∧ i = tid) := by
  obtain ⟨hu, hg⟩ := hfr
  unfold markAsAdded at hs
  cases hq : s.requests.find? (fun q => reqKey m i q && q.added_at == none) with
  | none => rw [hq] at hs; exact absurd hs (by simp)
  | some q =>
    have hmemq := List.mem_of_find?_eq_some hq
    have hpq := List.find?_some hq
    simp only [Bool.and_eq_true, beq_iff_eq, reqKey_iff] at hpq
    rintro ⟨rfl, rfl⟩
    have hmemr := List.mem_of_find?_eq_some hg
    have hpr := List.find?_some hg
    rw [reqKey_iff] at hpr
    have : q = r := keysUniqueB_eq_of_mem hu hmemq hmemr
      (hpq.1.1.trans hpr.1.symm) (hpq.1.2.trans hpr.2.symm)
    rw [this, hr] at hpq
    exact absurd hpq.2 (by simp)

/-! ## Monotonicity of `added_at`

`KeepsAdded s s'` : every key whose `added_at` is set in `s` still holds
the same value in `s'`. All engine operations preserve it, with no
assumption on the store. -/

def KeepsAdded (s s' : DBState) : Prop :=
  ∀ tid mt t, addedAtOf s tid mt = some t → addedAtOf s' tid mt = some t

theorem keepsAdded_refl (s : DBState) : KeepsAdded s s := fun _ _ _ h => h

theorem keepsAdded_trans {s1 s2 s3 : DBState} (h12 : KeepsAdded s1 s2)
    (h23 : KeepsAdded s2 s3) : KeepsAdded s1 s3 :=
  fun tid mt t h => h23 tid mt t (h12 tid mt t h)

theorem keepsAdded_of_requests_eq {s s' : DBState}
    (h : s'.requests = s.requests) : KeepsAdded s s' := by
  intro tid mt t ha
  unfold addedAtOf getRequest at ha ⊢
  rw [h]
  exact ha

theorem keepsAdded_map {s s' : DBState} {f : Request → Request}
    (hkey : ∀ r, (f r).media_type = r.media_type ∧ (f r).tmdb_id = r.tmdb_id)
    (hadd : ∀ r t, r.added_at = some t → (f r).added_at = some t)
    (h : s'.requests = s.requests.map f) : KeepsAdded s s' := by
  intro tid mt t ha
  unfold addedAtOf getRequest at ha ⊢
  rw [h, find?_map_eq _ _ _ (reqKey_congr hkey mt tid)]
  cases hg : s.requests.find? (reqKey mt tid) with
  | none => rw [hg] at ha; exact absurd ha (by simp)
  | some r =>
    rw [hg] at ha
    simp only [Option.some_bind] at ha
    simp only [Option.map_some', Option.some_bind]
    exact hadd r t ha

theorem keepsAdded_markAsAdded (now : String) (i : Int) (m : String)
    (s : DBState) : KeepsAdded s (markAsAdded now i m s).2 := by
  rcases markAsAdded_requests now i m s with h | h
  · exact keepsAdded_of_requests_eq h
  · exact keepsAdded_map (fulfillF_key now i m)
      (fun r t hr => by rw [fulfillF_of_added hr]; exact hr) h

theorem keepsAdded_updatePlexGuid (i : Int) (m g : String) (s : DBState) :
    KeepsAdded s (updatePlexGuid i m g s) :=
  keepsAdded_map (guidF_key i m g)
    (fun r t hr => by rw [guidF_added]; exact hr) (updatePlexGuid_requests i m g s)

theorem keepsAdded_syncLibrary (items : List SyncItem) (m : String) (c : Bool)
    (s : DBState) : KeepsAdded s (syncLibrary items m c s).2 :=
  keepsAdded_of_requests_eq (syncLibrary_requests items m c s)

theorem keepsAdded_setGuidCache (g : String) (a b : Option Int) (s : DBState) :
    KeepsAdded s (setGuidCache g a b s) :=
  keepsAdded_of_requests_eq (setGuidCache_requests g a b s)

theorem keepsAdded_setGuidCacheC {s0 s : DBState} (h : KeepsAdded s0 s)
    (g : String) (a b : Option Int) : KeepsAdded s0 (setGuidCache g a b s) :=
  keepsAdded_trans h (keepsAdded_setGuidCache g a b s)

theorem keepsAdded_updatePlexGuidC {s0 s : DBState} (h : KeepsAdded s0 s)
    (i : Int) (m g : String) : KeepsAdded s0 (updatePlexGuid i m g s) :=
  keepsAdded_trans h (keepsAdded_updatePlexGuid i m g s)

theorem keepsAdded_syncLibraryC {s0 s : DBState} (h : KeepsAdded s0 s)
    (items : List SyncItem) (m : String) (c : Bool) :
    KeepsAdded s0 (syncLibrary items m c s).2 :=
  keepsAdded_trans h (keepsAdded_syncLibrary items m c s)

theorem keepsAdded_strat1 (cfg : WebhookConfig) (media : PlexMedia)
    (showTmdb showTvdb : Option Int) (acc : MatchAcc) :
    KeepsAdded acc.s (strat1 cfg media showTmdb showTvdb acc).s := by
  unfold strat1
  cases showTmdb with
  | none => exact keepsAdded_refl _
  | some i =>
    dsimp only
    split
    · split
      next m1 s1 heq =>
        have h2 : s1 = (markAsAdded cfg.now i media.media_type acc.s).2 := by
          rw [heq]
        dsimp only
        split
        · exact keepsAdded_trans (h2 ▸ keepsAdded_markAsAdded _ _ _ _)
            (keepsAdded_trans (keepsAdded_updatePlexGuid _ _ _ _)
              (keepsAdded_setGuidCache _ _ _ _))
        · exact h2 ▸ keepsAdded_markAsAdded _ _ _ _
      next s1 heq =>
        have h2 : s1 = (markAsAdded cfg.now i media.media_type acc.s).2 := by
          rw [heq]
        exact h2 ▸ keepsAdded_markAsAdded _ _ _ _
    · exact keepsAdded_refl _

theorem keepsAdded_strat2 (cfg : WebhookConfig) (media : PlexMedia)
    (showTvdb : Option Int) (acc : MatchAcc) :
    KeepsAdded acc.s (strat2 cfg media showTvdb acc).s := by
  unfold strat2
  split
  · exact keepsAdded_refl _
  · split
    · dsimp only
      split
      · split
        next fr hfind =>
          split
          next m1 s1 heq =>
            have h2 : s1 = (markAsAdded cfg.now fr.tmdb_id media.media_type acc.s).2 := by
              rw [heq]
            dsimp only
            split
            · exact keepsAdded_trans (h2 ▸ keepsAdded_markAsAdded _ _ _ _)
                (keepsAdded_trans (keepsAdded_updatePlexGuid _ _ _ _)
                  (keepsAdded_setGuidCache _ _ _ _))
            · exact h2 ▸ keepsAdded_markAsAdded _ _ _ _
          next s1 heq =>
            have h2 : s1 = (markAsAdded cfg.now fr.tmdb_id media.media_type acc.s).2 := by
              rw [heq]
            exact h2 ▸ keepsAdded_markAsAdded _ _ _ _
        next hfind => exact keepsAdded_refl _
      · exact keepsAdded_refl _
    · exact keepsAdded_refl _

theorem keepsAdded_strat3 (cfg : WebhookConfig) (media : PlexMedia)
    (rfc : Bool) (acc : MatchAcc) :
    KeepsAdded acc.s (strat3 cfg media rfc acc).s := by
  unfold strat3
  split
  · exact keepsAdded_refl _
  · split
    · dsimp only
      split
      next fr hfind =>
        split
        next m1 s1 heq =>
          have h2 : s1 = (markAsAdded cfg.now fr.tmdb_id fr.media_type acc.s).2 := by
            rw [heq]
          dsimp only
          split
          · exact keepsAdded_trans (h2 ▸ keepsAdded_markAsAdded _ _ _ _)
              (keepsAdded_setGuidCache _ _ _ _)
          · exact h2 ▸ keepsAdded_markAsAdded _ _ _ _
        next s1 heq =>
          have h2 : s1 = (markAsAdded cfg.now fr.tmdb_id fr.media_type acc.s).2 := by
            rw [heq]
          exact h2 ▸ keepsAdded_markAsAdded _ _ _ _
      next hfind => exact keepsAdded_refl _
    · exact keepsAdded_refl _

theorem keepsAdded_strat4 (cfg : WebhookConfig) (media : PlexMedia)
    (rfc : Bool) (acc : MatchAcc) :
    KeepsAdded acc.s (strat4 cfg media rfc acc).s := by
  unfold strat4
  split
  · exact keepsAdded_refl _
  · split
    · split
      · dsimp only
        split
        · split
          · split
            next fr' hfind =>
              split
              next m1 s1 heq =>
                have h2 : KeepsAdded acc.s s1 := by
                  have : s1 = (markAsAdded cfg.now fr'.tmdb_id "tv" acc.s).2 := by
                    rw [heq]
                  exact this ▸ keepsAdded_markAsAdded _ _ _ _
                dsimp only
                split
                · refine keepsAdded_setGuidCacheC ?_ _ _ _
                  split
                  · exact keepsAdded_setGuidCacheC
                      (keepsAdded_updatePlexGuidC h2 _ _ _) _ _ _
                  · exact h2
                · split
                  · exact keepsAdded_setGuidCacheC
                      (keepsAdded_updatePlexGuidC h2 _ _ _) _ _ _
                  · exact h2
              next s1 heq =>
                have h2 : KeepsAdded acc.s s1 := by
                  have : s1 = (markAsAdded cfg.now fr'.tmdb_id "tv" acc.s).2 := by
                    rw [heq]
                  exact this ▸ keepsAdded_markAsAdded _ _ _ _
                dsimp only
                split
                · exact keepsAdded_setGuidCacheC h2 _ _ _
                · exact h2
            next hfind =>
              dsimp only
              split
              · exact keepsAdded_setGuidCache _ _ _ _
              · exact keepsAdded_refl _
          · exact keepsAdded_refl _
        · exact keepsAdded_refl _
      · exact keepsAdded_refl _
    · exact keepsAdded_refl _

theorem keepsAdded_strat5 (cfg : WebhookConfig) (media : PlexMedia)
    (showTmdb showTvdb : Option Int) (acc : MatchAcc) :
    KeepsAdded acc.s (strat5 cfg media showTmdb showTvdb acc).s := by
  unfold strat5
  split
  · exact keepsAdded_refl _
  · split
    next fr hfind =>
      split
      next m1 s1 heq =>
        have h2 : s1 = (markAsAdded cfg.now fr.tmdb_id media.media_type acc.s).2 := by
          rw [heq]
        dsimp only
        have hs2 : KeepsAdded acc.s (syncLibrary
            [{ tmdb_id := some fr.tmdb_id, tvdb_id := fr.tvdb_id,
               title := some media.title }] media.media_type false s1).2 :=
          keepsAdded_trans (h2 ▸ keepsAdded_markAsAdded _ _ _ _)
            (keepsAdded_syncLibrary _ _ _ _)
        split
        · exact keepsAdded_trans hs2
            (keepsAdded_trans (keepsAdded_updatePlexGuid _ _ _ _)
              (keepsAdded_setGuidCache _ _ _ _))
        · exact hs2
      next s1 heq =>
        have h2 : s1 = (markAsAdded cfg.now fr.tmdb_id media.media_type acc.s).2 := by
          rw [heq]
        exact h2 ▸ keepsAdded_markAsAdded _ _ _ _
    next hfind => exact keepsAdded_refl _

theorem keepsAdded_stratChain (cfg : WebhookConfig) (media : PlexMedia)
    (showTmdb showTvdb : Option Int) (rfc : Bool) (acc : MatchAcc) :
    KeepsAdded acc.s
      (strat5 cfg media showTmdb showTvdb
        (strat4 cfg media rfc
          (strat3 cfg media rfc
            (strat2 cfg media showTvdb
              (strat1 cfg media showTmdb showTvdb acc))))).s :=
  keepsAdded_trans (keepsAdded_strat1 cfg media showTmdb showTvdb acc)
    (keepsAdded_trans (keepsAdded_strat2 cfg media showTvdb _)
      (keepsAdded_trans (keepsAdded_strat3 cfg media rfc _)
        (keepsAdded_trans (keepsAdded_strat4 cfg media rfc _)
          (keepsAdded_strat5 cfg media showTmdb showTvdb _))))

theorem keepsAdded_plexWebhook (cfg : WebhookConfig) (payload : PlexPayload)
    (s : DBState) : KeepsAdded s (plexWebhook cfg payload s).state := by
  unfold plexWebhook
  split
  · exact keepsAdded_refl _
  · split
    · exact keepsAdded_refl _
    · split
      · exact keepsAdded_refl _
      next media hmedia =>
        dsimp only
        refine keepsAdded_trans ?_ (keepsAdded_stratChain cfg media _ _ _ _)
        dsimp only
        repeat' split
        all_goals first
          | exact keepsAdded_syncLibrary _ _ _ _
          | exact keepsAdded_refl _

theorem keepsAdded_syncStep (now mt : String) (p : Nat × DBState)
    (it : SyncItem) : KeepsAdded p.2 (syncStep now mt p it).2 := by
  unfold syncStep
  split
  · split
    next s' heq =>
      have h2 : s' = (markAsAdded now (it.tmdb_id.getD 0) mt p.2).2 := by rw [heq]
      exact h2 ▸ keepsAdded_markAsAdded _ _ _ _
    next s' heq =>
      have h2 : s' = (markAsAdded now (it.tmdb_id.getD 0) mt p.2).2 := by rw [heq]
      exact h2 ▸ keepsAdded_markAsAdded _ _ _ _
  · exact keepsAdded_refl _

theorem keepsAdded_syncFold (now mt : String) (items : List SyncItem)
    (p : Nat × DBState) :
    KeepsAdded p.2 (items.foldl (syncStep now mt) p).2 := by
  induction items generalizing p with
  | nil => exact keepsAdded_refl _
  | cons it its ih =>
    simp only [List.foldl_cons]
    exact keepsAdded_trans (keepsAdded_syncStep now mt p it) (ih _)

theorem keepsAdded_syncEndpoint (now mt : String) (clear : Bool)
    (items : List SyncItem) (s : DBState) :
    KeepsAdded s (syncLibraryEndpoint now mt clear items s).state := by
  unfold syncLibraryEndpoint
  split
  · exact keepsAdded_refl _
  · dsimp only
    exact keepsAdded_trans (keepsAdded_syncLibrary items mt clear s)
      (keepsAdded_syncFold now mt items (0, (syncLibrary items mt clear s).2))

theorem keepsAdded_applyOp (cfg : WebhookConfig) (op : Op) (s : DBState) :
    KeepsAdded s (applyOp cfg op s) := by
  cases op with
  | webhook payload => exact keepsAdded_plexWebhook cfg payload s
  | syncOp mt clear items => exact keepsAdded_syncEndpoint cfg.now mt clear items s
  | updateGuid tid mt g => exact keepsAdded_updatePlexGuid tid mt g s
  | markOp tid mt => exact keepsAdded_markAsAdded cfg.now tid mt s

theorem keepsAdded_runOps (cfg : WebhookConfig) (ops : List Op) (s : DBState) :
    KeepsAdded s (runOps cfg ops s) := by
  induction ops generalizing s with
  | nil => exact keepsAdded_refl _
  | cons op ops ih =>
    exact keepsAdded_trans (keepsAdded_applyOp cfg op s) (ih _)

/-! ## The webhook never touches an already-fulfilled row -/

theorem frozen_strat1 (cfg : WebhookConfig) (media : PlexMedia)
    (showTmdb showTvdb : Option Int) {tid : Int} {mt : String} {r : Request}
    {t : String} {acc : MatchAcc} (hfr : FrozenAt tid mt r acc.s)
    (hr : r.added_at = some t) :
    FrozenAt tid mt r (strat1 cfg media showTmdb showTvdb acc).s := by
  unfold strat1
  cases showTmdb with
  | none => exact hfr
  | some i =>
    dsimp only
    split
    · split
      next m1 s1 heq =>
        have h1 : (markAsAdded cfg.now i media.media_type acc.s).1 = some m1 := by
          rw [heq]
        have hs1 : FrozenAt tid mt r s1 := by
          have h2 : s1 = (markAsAdded cfg.now i media.media_type acc.s).2 := by
            rw [heq]
          exact h2 ▸ frozen_markAsAdded hfr hr _ _ _
        have hne := markAsAdded_success_key_ne h1 hfr hr
        dsimp only
        split
        · exact frozen_setGuidCache (frozen_updatePlexGuid hs1 hne _) _ _ _
        · exact hs1
      next s1 heq =>
        have h2 : s1 = (markAsAdded cfg.now i media.media_type acc.s).2 := by
          rw [heq]
        exact h2 ▸ frozen_markAsAdded hfr hr _ _ _
    · exact hfr

theorem frozen_strat2 (cfg : WebhookConfig) (media : PlexMedia)
    (showTvdb : Option Int) {tid : Int} {mt : String} {r : Request}
    {t : String} {acc : MatchAcc} (hfr : FrozenAt tid mt r acc.s)
    (hr : r.added_at = some t) :
    FrozenAt tid mt r (strat2 cfg media showTvdb acc).s := by
  unfold strat2
  split
  · exact hfr
  · split
    · dsimp only
      split
      · split
        next fr hfind =>
          split
          next m1 s1 heq =>
            have h1 : (markAsAdded cfg.now fr.tmdb_id media.media_type acc.s).1
                = some m1 := by rw [heq]
            have hs1 : FrozenAt tid mt r s1 := by
              have h2 : s1 =
                  (markAsAdded cfg.now fr.tmdb_id media.media_type acc.s).2 := by
                rw [heq]
              exact h2 ▸ frozen_markAsAdded hfr hr _ _ _
            have hne := markAsAdded_success_key_ne h1 hfr hr
            dsimp only
            split
            · exact frozen_setGuidCache (frozen_updatePlexGuid hs1 hne _) _ _ _
            · exact hs1
          next s1 heq =>
            have h2 : s1 =
                (markAsAdded cfg.now fr.tmdb_id media.media_type acc.s).2 := by
              rw [heq]
            exact h2 ▸ frozen_markAsAdded hfr hr _ _ _
        next hfind => exact hfr
      · exact hfr
    · exact hfr

theorem frozen_strat3 (cfg : WebhookConfig) (media : PlexMedia)
    (rfc : Bool) {tid : Int} {mt : String} {r : Request}
    {t : String} {acc : MatchAcc} (hfr : FrozenAt tid mt r acc.s)
    (hr : r.added_at = some t) :
    FrozenAt tid mt r (strat3 cfg media rfc acc).s := by
  unfold strat3
  split
  · exact hfr
  · split
    · dsimp only
      split
      next fr hfind =>
        split
        next m1 s1 heq =>
          have hs1 : FrozenAt tid mt r s1 := by
            have h2 : s1 =
                (markAsAdded cfg.now fr.tmdb_id fr.media_type acc.s).2 := by
              rw [heq]
            exact h2 ▸ frozen_markAsAdded hfr hr _ _ _
          dsimp only
          split
          · exact frozen_setGuidCache hs1 _ _ _
          · exact hs1
        next s1 heq =>
          have h2 : s1 =
              (markAsAdded cfg.now fr.tmdb_id fr.media_type acc.s).2 := by
            rw [heq]
          exact h2 ▸ frozen_markAsAdded hfr hr _ _ _
      next hfind => exact hfr
    · exact hfr

theorem frozen_strat4 (cfg : WebhookConfig) (media : PlexMedia)
    (rfc : Bool) {tid : Int} {mt : String} {r : Request}
    {t : String} {acc : MatchAcc} (hfr : FrozenAt tid mt r acc.s)
    (hr : r.added_at = some t) :
    FrozenAt tid mt r (strat4 cfg media rfc acc).s := by
  unfold strat4
  split
  · exact hfr
  · split
    · split
      · dsimp only
        split
        · split
          · split
            next fr' hfind =>
              split
              next m1 s1 heq =>
                have h1 : (markAsAdded cfg.now fr'.tmdb_id "tv" acc.s).1
                    = some m1 := by rw [heq]
                have hs1 : FrozenAt tid mt r s1 := by
                  have h2 : s1 = (markAsAdded cfg.now fr'.tmdb_id "tv" acc.s).2 := by
                    rw [heq]
                  exact h2 ▸ frozen_markAsAdded hfr hr _ _ _
                have hne := markAsAdded_success_key_ne h1 hfr hr
                dsimp only
                split
                · refine frozen_setGuidCache ?_ _ _ _
                  split
                  · exact frozen_setGuidCache (frozen_updatePlexGuid hs1 hne _) _ _ _
                  · exact hs1
                · split
                  · exact frozen_setGuidCache (frozen_updatePlexGuid hs1 hne _) _ _ _
                  · exact hs1
              next s1 heq =>
                have hs1 : FrozenAt tid mt r s1 := by
                  have h2 : s1 = (markAsAdded cfg.now fr'.tmdb_id "tv" acc.s).2 := by
                    rw [heq]
                  exact h2 ▸ frozen_markAsAdded hfr hr _ _ _
                dsimp only
                split
                · exact frozen_setGuidCache hs1 _ _ _
                · exact hs1
            next hfind =>
              dsimp only
              split
              · exact frozen_setGuidCache hfr _ _ _
              · exact hfr
          · exact hfr
        · exact hfr
      · exact hfr
    · exact hfr

theorem frozen_strat5 (cfg : WebhookConfig) (media : PlexMedia)
    (showTmdb showTvdb : Option Int) {tid : Int} {mt : String} {r : Request}
    {t : String} {acc : MatchAcc} (hfr : FrozenAt tid mt r acc.s)
    (hr : r.added_at = some t) :
    FrozenAt tid mt r (strat5 cfg media showTmdb showTvdb acc).s := by
  unfold strat5
  split
  · exact hfr
  · split
    next fr hfind =>
      split
      next m1 s1 heq =>
        have h1 : (markAsAdded cfg.now fr.tmdb_id media.media_type acc.s).1
            = some m1 := by rw [heq]
        have hs1 : FrozenAt tid mt r s1 := by
          have h2 : s1 =
              (markAsAdded cfg.now fr.tmdb_id media.media_type acc.s).2 := by
            rw [heq]
          exact h2 ▸ frozen_markAsAdded hfr hr _ _ _
        have hne := markAsAdded_success_key_ne h1 hfr hr
        have hs2 := frozen_syncLibrary hs1
          [{ tmdb_id := some fr.tmdb_id, tvdb_id := fr.tvdb_id,
             title := some media.title }] media.media_type false
        dsimp only
        split
        · exact frozen_setGuidCache (frozen_updatePlexGuid hs2 hne _) _ _ _
        · exact hs2
      next s1 heq =>
        have h2 : s1 =
            (markAsAdded cfg.now fr.tmdb_id media.media_type acc.s).2 := by
          rw [heq]
        exact h2 ▸ frozen_markAsAdded hfr hr _ _ _
    next hfind => exact hfr

theorem frozen_stratChain (cfg : WebhookConfig) (media : PlexMedia)
    (showTmdb showTvdb : Option Int) (rfc : Bool) {tid : Int} {mt : String}
    {r : Request} {t : String} {acc : MatchAcc}
    (hfr : FrozenAt tid mt r acc.s) (hr : r.added_at = some t) :
    FrozenAt tid mt r
      (strat5 cfg media showTmdb showTvdb
        (strat4 cfg media rfc
          (strat3 cfg media rfc
            (strat2 cfg media showTvdb
              (strat1 cfg media showTmdb showTvdb acc))))).s :=
  frozen_strat5 cfg media showTmdb showTvdb
    (frozen_strat4 cfg media rfc
      (frozen_strat3 cfg media rfc
        (frozen_strat2 cfg media showTvdb
          (frozen_strat1 cfg media showTmdb showTvdb hfr hr) hr) hr) hr) hr

/-- A webhook — any webhook, in particular an exact replay of the one
that fulfilled the request — leaves an already-fulfilled request row
entirely unchanged. -/
theorem frozen_plexWebhook (cfg : WebhookConfig) (payload : PlexPayload)
    {s : DBState} {tid : Int} {mt : String} {r : Request} {t : String}
    (hfr : FrozenAt tid mt r s) (hr : r.added_at = some t) :
    FrozenAt tid mt r (plexWebhook cfg payload s).state := by
  unfold plexWebhook
  split
  · exact hfr
  · split
    · exact hfr
    · split
      · exact hfr
      next media hmedia =>
        dsimp only
        refine frozen_stratChain cfg media _ _ _ ?_ hr
        dsimp only
        repeat' split
        all_goals first
          | exact frozen_syncLibrary hfr _ _ _
          | exact hfr

/-- `mark_as_added` can succeed exactly when the store holds a row with
the written key whose `added_at` is NULL. -/
theorem markAsAdded_isSome_iff (now : String) (tid : Int) (mt : String)
    (s : DBState) :
    (markAsAdded now tid mt s).1.isSome = true ↔
      ∃ q ∈ s.requests, q.media_type = mt ∧ q.tmdb_id = tid ∧
        q.added_at = none := by
  unfold markAsAdded
  cases h : s.requests.find? (fun r => reqKey mt tid r && r.added_at == none) with
  | some q =>
    simp only [Option.isSome_some, true_iff]
    have hq := List.find?_some h
    simp only [Bool.and_eq_true, beq_iff_eq, reqKey_iff] at hq
    exact ⟨q, List.mem_of_find?_eq_some h, hq.1.1, hq.1.2, hq.2⟩
  | none =>
    simp only [Option.isSome_none, Bool.false_eq_true, false_iff]
    rintro ⟨q, hmem, hmt, hid, hadd⟩
    have := List.find?_eq_none.mp h q hmem
    simp only [Bool.and_eq_true, beq_iff_eq, reqKey_iff] at this
    exact this ⟨⟨hmt, hid⟩, hadd⟩

/-- C1: For every Request and every sequence of webhook and sync
operations referencing it, `added_at` is set at most once:
(i) `mark_as_added` succeeds only under the storage condition that
`added_at` is absent/NULL; (ii) once `added_at` is non-null, no
operation — webhook processing, a repeated `/sync/library` call,
`update_plex_guid`, or `mark_as_added` itself — ever clears or
overwrites it; (iii) under the UNIQUE(tmdb_id, media_type) schema
constraint, a replayed webhook (in particular the very webhook that
matched the request) leaves the fulfilled Request row entirely
unchanged. -/
theorem C1_added_at_set_at_most_once (cfg : WebhookConfig) :
    (∀ (now : String) (tid : Int) (mt : String) (s : DBState),
      (markAsAdded now tid mt s).1.isSome = true ↔
        ∃ q ∈ s.requests, q.media_type = mt ∧ q.tmdb_id = tid ∧
          q.added_at = none)
    ∧ (∀ (ops : List Op) (s : DBState) (tid : Int) (mt t : String),
        addedAtOf s tid mt = some t →
        addedAtOf (runOps cfg ops s) tid mt = some t)
    ∧ (∀ (payload : PlexPayload) (s : DBState) (tid : Int) (mt : String)
        (r : Request) (t : String), keysUniqueB s.requests = true →
        getRequest s tid mt = some r → r.added_at = some t →
        getRequest (plexWebhook cfg payload s).state tid mt = some r) := by
  refine ⟨markAsAdded_isSome_iff, ?_, ?_⟩
  · intro ops s tid mt t h
    exact keepsAdded_runOps cfg ops s tid mt t h
  · intro payload s tid mt r t hu hg hr
    exact (frozen_plexWebhook cfg payload ⟨hu, hg⟩ hr).2

/-- Concrete instance data for the C1 witness: one fulfilled movie
request, replayed webhook and a sync/guid-update/mark sequence. -/
def wReq : Request :=
  { media_type := "movie", tmdb_id := 7, title := "Heat",
    requested_by := some "alice", added_at := some "T0",
    plex_guid := some "plex://movie/w" }

def wState : DBState := { requests := [wReq] }

def wPayload : PlexPayload :=
  { event := "library.new",
    metadata := { type := "movie", title := some "Heat",
                  guid := some "plex://movie/w", guidIds := ["tmdb://7"] } }

def wCfg : WebhookConfig := { now := "T1" }

def wOps : List Op :=
  [Op.webhook wPayload, Op.syncOp "movie" false [{ tmdb_id := some 7 }],
   Op.updateGuid 7 "movie" "plex://movie/w2", Op.markOp 7 "movie"]

/-- Witness for C1 at concrete inputs: the hypotheses hold for `wState`
and `added_at` survives the whole operation sequence; the replayed
webhook leaves the fulfilled row unchanged. -/
theorem C1_witness :
    (keysUniqueB wState.requests = true ∧ getRequest wState 7 "movie" = some wReq ∧
      wReq.added_at = some "T0" ∧ addedAtOf wState 7 "movie" = some "T0") ∧
    addedAtOf (runOps wCfg wOps wState) 7 "movie" = some "T0" ∧
    getRequest (plexWebhook wCfg wPayload wState).state 7 "movie" = some wReq :=
  ⟨⟨by decide, by decide, by decide, by decide⟩,
   (C1_added_at_set_at_most_once wCfg).2.1 wOps wState 7 "movie" "T0" (by decide),
   (C1_added_at_set_at_most_once wCfg).2.2 wPayload wState 7 "movie" wReq "T0"
     (by decide) (by decide) (by decide)⟩

/-! ## C2: the identity parser -/

/-- An episode webhook payload whose Guid array carries an
episode-scoped tmdb id and an episode-scoped tvdb id. -/
def c2Payload : PlexPayload :=
  { event := "library.new",
    metadata := { type := "episode", grandparentTitle := some "Show",
                  grandparentYear := some 2020,
                  grandparentGuid := some "plex://show/abc",
                  guidIds := ["tmdb://111", "tvdb://222"] } }

/-- C2 counterexample: on an episode payload, `parse_plex_payload` moves
the tvdb id to `episode_tvdb_id` and nulls `tvdb_id`, but it does NOT
drop the episode-scoped tmdb id — `tmdb_id` comes out as `111`, not
null, refuting the claim that the episode-scoped tmdb id is dropped by
the parser. -/
theorem C2_episode_tmdb_not_dropped :
    (parsePlexPayload c2Payload).map PlexMedia.tmdb_id = some (some 111) ∧
    (parsePlexPayload c2Payload).map PlexMedia.tvdb_id = some none ∧
    (parsePlexPayload c2Payload).map PlexMedia.episode_tvdb_id =
      some (some 222) := by
  decide

/-- C2 amended: for every documented Plex type the parser yields the
right media_type and the right show-level Plex GUID; for a season both
`tmdb_id` and `tvdb_id` are nulled; for an episode the (nonzero) Guid
tvdb id is moved to `episode_tvdb_id` with `tvdb_id` nulled, while the
episode-scoped tmdb id is NOT dropped — it is left in `tmdb_id` (the
webhook engine, not the parser, discards it); any other type parses to
none. -/
theorem C2_parser_amended (payload : PlexPayload) :
    ((payload.metadata.type = "movie" →
      (parsePlexPayload payload).map PlexMedia.media_type = some "movie" ∧
      (parsePlexPayload payload).map PlexMedia.plex_guid =
        some payload.metadata.guid ∧
      (parsePlexPayload payload).map PlexMedia.tmdb_id =
        some (parseGuidList payload.metadata.guidIds).tmdb_id ∧
      (parsePlexPayload payload).map PlexMedia.tvdb_id =
        some (parseGuidList payload.metadata.guidIds).tvdb_id ∧
      (parsePlexPayload payload).map PlexMedia.episode_tvdb_id = some none)
    ∧ (payload.metadata.type = "show" →
      (parsePlexPayload payload).map PlexMedia.media_type = some "tv" ∧
      (parsePlexPayload payload).map PlexMedia.plex_guid =
        some payload.metadata.guid ∧
      (parsePlexPayload payload).map PlexMedia.tmdb_id =
        some (parseGuidList payload.metadata.guidIds).tmdb_id ∧
      (parsePlexPayload payload).map PlexMedia.tvdb_id =
        some (parseGuidList payload.metadata.guidIds).tvdb_id ∧
      (parsePlexPayload payload).map PlexMedia.episode_tvdb_id = some none))
    ∧ ((payload.metadata.type = "season" →
      (parsePlexPayload payload).map PlexMedia.media_type = some "tv" ∧
      (parsePlexPayload payload).map PlexMedia.plex_guid =
        some payload.metadata.parentGuid ∧
      (parsePlexPayload payload).map PlexMedia.tmdb_id = some none ∧
      (parsePlexPayload payload).map PlexMedia.tvdb_id = some none ∧
      (parsePlexPayload payload).map PlexMedia.episode_tvdb_id = some none)
    ∧ (payload.metadata.type = "episode" →
      (parsePlexPayload payload).map PlexMedia.media_type = some "tv" ∧
      (parsePlexPayload payload).map PlexMedia.plex_guid =
        some payload.metadata.grandparentGuid ∧
      (parsePlexPayload payload).map PlexMedia.tmdb_id =
        some (parseGuidList payload.metadata.guidIds).tmdb_id ∧
      (intT (parseGuidList payload.metadata.guidIds).tvdb_id = true →
        (parsePlexPayload payload).map PlexMedia.tvdb_id = some none ∧
        (parsePlexPayload payload).map PlexMedia.episode_tvdb_id =
          some (parseGuidList payload.metadata.guidIds).tvdb_id) ∧
      (intT (parseGuidList payload.metadata.guidIds).tvdb_id = false →
        (parsePlexPayload payload).map PlexMedia.tvdb_id =
          some (parseGuidList payload.metadata.guidIds).tvdb_id ∧
        (parsePlexPayload payload).map PlexMedia.episode_tvdb_id = some none)))
    ∧ (payload.metadata.type ≠ "movie" → payload.metadata.type ≠ "show" →
        payload.metadata.type ≠ "season" → payload.metadata.type ≠ "episode" →
        parsePlexPayload payload = none) := by
  refine ⟨⟨?_, ?_⟩, ⟨?_, ?_⟩, ?_⟩
  · intro h
    simp [parsePlexPayload, h]
  · intro h
    simp [parsePlexPayload, h]
  · intro h
    simp [parsePlexPayload, h]
  · intro h
    by_cases ht : intT (parseGuidList payload.metadata.guidIds).tvdb_id = true
    · simp [parsePlexPayload, h, ht]
    · simp only [Bool.not_eq_true] at ht
      simp [parsePlexPayload, h, ht]
  · intro h1 h2 h3 h4
    simp [parsePlexPayload, h1, h2, h3, h4]

/-- Witness for C2's amended parser contract at the concrete episode
payload above. -/
theorem C2_parser_amended_witness :
    c2Payload.metadata.type = "episode" ∧
    (parsePlexPayload c2Payload).map PlexMedia.media_type = some "tv" ∧
    (parsePlexPayload c2Payload).map PlexMedia.plex_guid =
      some c2Payload.metadata.grandparentGuid ∧
    (parsePlexPayload c2Payload).map PlexMedia.tmdb_id =
      some (parseGuidList c2Payload.metadata.guidIds).tmdb_id :=
  ⟨rfl, ((C2_parser_amended c2Payload).2.1.2 rfl).1,
    ((C2_parser_amended c2Payload).2.1.2 rfl).2.1,
    ((C2_parser_amended c2Payload).2.1.2 rfl).2.2.1⟩

/-! ## C3: GUID-cache hit does not short-circuit the TVDB lookup -/

/-- Store after a first episode webhook of an unmatched show: the GUID
cache maps the show GUID to `(∅, 75897)`; no requests exist. -/
def c3State : DBState :=
  { guidCache := [{ plex_guid := "plex://show/abc", show_tmdb_id := none,
                    show_tvdb_id := some 75897 }] }

def c3Cfg : WebhookConfig :=
  { tvdbLookup := fun _ => some 75897, now := "T" }

/-- The second episode webhook: same `grandparentGuid`, a different
episode tvdb id. -/
def c3Payload : PlexPayload :=
  { event := "library.new",
    metadata := { type := "episode", grandparentTitle := some "Show",
                  grandparentGuid := some "plex://show/abc",
                  guidIds := ["tvdb://888888"] } }

/-- C3: the second episode webhook with the same show GUID is a GUID
cache hit, no pending request matches — and the engine nevertheless
makes one TVDB reverse-lookup call: strategy 4's guard checks only
`matched_request` and `episode_tvdb_id`, never the cache-hit flag, so
the cached show-level pair does not short-circuit the lookup. This
contradicts the claim (and the source's own comments that the cache
entry means the "next episode won't need TVDB lookup"). -/
theorem C3_cache_hit_still_calls_tvdb :
    getGuidCache c3State "plex://show/abc" = some (none, some 75897) ∧
    (plexWebhook c3Cfg c3Payload c3State).matchedRequest = none ∧
    (plexWebhook c3Cfg c3Payload c3State).tvdbCalls = 1 := by
  decide

/-! ## C4: the sync path fulfills requests but never notifies -/

/-- A fulfillment write hits the looked-up pending row. -/
theorem markAsAdded_sets {s : DBState} {tid : Int} {mt : String} {r : Request}
    (hg : getRequest s tid mt = some r) (hp : r.added_at = none)
    (now : String) : addedAtOf (markAsAdded now tid mt s).2 tid mt = some now := by
  have hmem := List.mem_of_find?_eq_some hg
  have hkey := List.find?_some hg
  unfold markAsAdded
  cases hq : s.requests.find? (fun q => reqKey mt tid q && q.added_at == none) with
  | none =>
    exact absurd (List.find?_eq_none.mp hq r hmem)
      (by simp [hkey, hp])
  | some q =>
    unfold addedAtOf getRequest
    dsimp only
    rw [find?_map_eq _ _ _ (reqKey_congr (fulfillF_key now tid mt) mt tid)]
    unfold getRequest at hg
    rw [hg]
    simp only [Option.map_some', Option.some_bind]
    unfold fulfillF
    simp [hkey, hp]

/-- After any fulfillment write, a previously pending row is either
untouched or fulfilled with the written timestamp. -/
theorem markAsAdded_pending_cases {s : DBState} {tid : Int} {mt : String}
    {r : Request} (hg : getRequest s tid mt = some r)
    (now : String) (i : Int) (m : String) :
    getRequest (markAsAdded now i m s).2 tid mt = some r ∨
      addedAtOf (markAsAdded now i m s).2 tid mt = some now := by
  rcases markAsAdded_requests now i m s with h | h
  · left
    unfold getRequest at hg ⊢
    rw [h]
    exact hg
  · have hfind : (markAsAdded now i m s).2.requests.find? (reqKey mt tid)
        = some (fulfillF now i m r) := by
      rw [h, find?_map_eq _ _ _ (reqKey_congr (fulfillF_key now i m) mt tid)]
      unfold getRequest at hg
      rw [hg]
      rfl
    by_cases hc : (reqKey m i r && r.added_at == none) = true
    · right
      unfold addedAtOf getRequest
      rw [hfind]
      simp only [Option.some_bind]
      unfold fulfillF
      rw [if_pos hc]
    · left
      unfold getRequest
      rw [hfind]
      unfold fulfillF
      rw [if_neg hc]

theorem syncStep_pending_cases {p : Nat × DBState} {tid : Int} {mt : String}
    {r : Request} (hg : getRequest p.2 tid mt = some r)
    (now : String) (it : SyncItem) :
    getRequest (syncStep now mt p it).2 tid mt = some r ∨
      addedAtOf (syncStep now mt p it).2 tid mt = some now := by
  unfold syncStep
  split
  · split
    next s' heq =>
      have h2 : s' = (markAsAdded now (it.tmdb_id.getD 0) mt p.2).2 := by rw [heq]
      rw [h2]
      exact markAsAdded_pending_cases hg now _ mt
    next s' heq =>
      have h2 : s' = (markAsAdded now (it.tmdb_id.getD 0) mt p.2).2 := by rw [heq]
      rw [h2]
      exact markAsAdded_pending_cases hg now _ mt
  · exact Or.inl hg

/-- Every pending request whose key appears among the synced items ends
up fulfilled with the loop's timestamp. -/
theorem syncFold_marks (now mt : String) :
    ∀ (items : List SyncItem) (p : Nat × DBState) (tid : Int) (r : Request),
      getRequest p.2 tid mt = some r → r.added_at = none →
      (∃ it ∈ items, it.tmdb_id = some tid ∧ tid ≠ 0) →
      addedAtOf (items.foldl (syncStep now mt) p).2 tid mt = some now := by
  intro items
  induction items with
  | nil =>
    rintro p tid r _ _ ⟨it, hmem, _⟩
    cases hmem
  | cons it its ih =>
    rintro p tid r hg hp ⟨w, hmem, hw, htid⟩
    simp only [List.foldl_cons]
    rcases List.mem_cons.mp hmem with rfl | hmem'
    · have hstep : addedAtOf (syncStep now mt p w).2 tid mt = some now := by
        unfold syncStep
        have hT : intT w.tmdb_id = true := by simp [hw, intT, htid]
        rw [if_pos hT]
        have hD : w.tmdb_id.getD 0 = tid := by rw [hw]; rfl
        split
        next s' heq =>
          have h2 : s' = (markAsAdded now (w.tmdb_id.getD 0) mt p.2).2 := by
            rw [heq]
          rw [h2, hD]
          exact markAsAdded_sets hg hp now
        next s' heq =>
          have h2 : s' = (markAsAdded now (w.tmdb_id.getD 0) mt p.2).2 := by
            rw [heq]
          rw [h2, hD]
          exact markAsAdded_sets hg hp now
      exact keepsAdded_syncFold now mt its _ tid mt now hstep
    · rcases syncStep_pending_cases hg now it with h | h
      · exact ih _ tid r h hp ⟨w, hmem', hw, htid⟩
      · exact keepsAdded_syncFold now mt its _ tid mt now h

/-- The store of a pending movie request for tmdb id 4 by alice. -/
def c4Req : Request :=
  { media_type := "movie", tmdb_id := 4, title := "X",
    requested_by := some "alice" }

def c4State : DBState := { requests := [c4Req] }

def c4Items : List SyncItem := [{ tmdb_id := some 4, title := some "X" }]

/-- C4 counterexample: a `/sync/library` call whose item matches a
pending request transitions it from pending to fulfilled (`marked = 1`,
`added_at` set) — yet the values passed to
`send_fulfillment_notification` during the call are `[]`: the sync
handler contains no call to the notifier, so no fulfillment push
notification is attempted for the requester. -/
theorem C4_sync_never_notifies :
    addedAtOf c4State 4 "movie" = none ∧
    (syncLibraryEndpoint "T" "movie" false c4Items c4State).marked = 1 ∧
    addedAtOf (syncLibraryEndpoint "T" "movie" false c4Items c4State).state
      4 "movie" = some "T" ∧
    (syncLibraryEndpoint "T" "movie" false c4Items c4State).notifierArgs = [] := by
  decide

/-- C4 amended: for every bulk sync with a valid media type, the
endpoint upserts the items, attempts conditional fulfillment (S1) for
each item with a truthy tmdb_id — so every pending Request matching a
synced item ends up fulfilled and `synced`/`marked` counts are
returned — but it attempts NO fulfillment notification: the notifier is
never invoked on the sync path. -/
theorem C4_sync_amended (now mt : String) (clear : Bool)
    (items : List SyncItem) (s : DBState)
    (hmt : mt = "movie" ∨ mt = "tv") :
    (syncLibraryEndpoint now mt clear items s).statusCode = 200 ∧
    (syncLibraryEndpoint now mt clear items s).notifierArgs = [] ∧
    (items.all (fun it => it.tmdb_id.isSome) = true →
      (syncLibraryEndpoint now mt clear items s).synced = items.length) ∧
    (∀ (tid : Int) (r : Request), getRequest s tid mt = some r →
      r.added_at = none → (∃ it ∈ items, it.tmdb_id = some tid ∧ tid ≠ 0) →
      addedAtOf (syncLibraryEndpoint now mt clear items s).state tid mt
        = some now) := by
  have hguard : (mt != "movie" && mt != "tv") = false := by
    rcases hmt with rfl | rfl <;> rfl
  refine ⟨?_, ?_, ?_, ?_⟩
  · unfold syncLibraryEndpoint
    rw [hguard]
    rfl
  · unfold syncLibraryEndpoint
    rw [hguard]
    rfl
  · intro hall
    unfold syncLibraryEndpoint
    rw [hguard]
    show (syncLibrary items mt clear s).1 = items.length
    unfold syncLibrary
    rw [if_pos hall]
  · intro tid r hg hp hex
    unfold syncLibraryEndpoint
    rw [hguard]
    show addedAtOf (items.foldl (syncStep now mt)
      (0, (syncLibrary items mt clear s).2)).2 tid mt = some now
    refine syncFold_marks now mt items (0, (syncLibrary items mt clear s).2)
      tid r ?_ hp hex
    show getRequest (syncLibrary items mt clear s).2 tid mt = some r
    unfold getRequest
    rw [syncLibrary_requests]
    exact hg

/-- Witness for the amended C4 at the concrete store above. -/
theorem C4_sync_amended_witness :
    (("movie" : String) = "movie" ∨ ("movie" : String) = "tv") ∧
    (syncLibraryEndpoint "T" "movie" false c4Items c4State).statusCode = 200 ∧
    (syncLibraryEndpoint "T" "movie" false c4Items c4State).notifierArgs = [] ∧
    addedAtOf (syncLibraryEndpoint "T" "movie" false c4Items c4State).state
      4 "movie" = some "T" :=
  ⟨Or.inl rfl,
   (C4_sync_amended "T" "movie" false c4Items c4State (Or.inl rfl)).1,
   (C4_sync_amended "T" "movie" false c4Items c4State (Or.inl rfl)).2.1,
   (C4_sync_amended "T" "movie" false c4Items c4State (Or.inl rfl)).2.2.2
     4 c4Req (by decide) (by decide) ⟨{ tmdb_id := some 4, title := some "X" },
       by decide, by decide, by decide⟩⟩

/-! ## C5: what reaches `send_fulfillment_notification` -/

def c5Req : Request :=
  { media_type := "movie", tmdb_id := 603, title := "The Matrix",
    poster_path := some "/p.jpg", requested_by := some "alice" }

def c5State : DBState := { requests := [c5Req] }

def c5Cfg : WebhookConfig := { now := "T" }

def c5Payload : PlexPayload :=
  { event := "library.new",
    metadata := { type := "movie", title := some "The Matrix",
                  year := some 1999, guid := some "plex://movie/xyz",
                  guidIds := ["tmdb://603", "imdb://tt0133093"] } }

/-- C5, evaluated at the failing input: under the provider interface
(`mark_as_added` returning the post-image, src/shared/database.py
46-48), the webhook passes to `send_fulfillment_notification` exactly
the fulfilled request's post-image, which carries `requested_by`,
`title`, `poster_path`, `media_type` and `tmdb_id` — but the
backend-lambda variant's `mark_as_added`
(src/backend-lambda/database.py 135-156) returns only the success
boolean `True`, so in src/backend-lambda/main.py 1034-1037 the value
bound to `matched_request` and handed to the notifier carries none of
those fields. -/
theorem C5_notifier_receives_post_image :
    (plexWebhook c5Cfg c5Payload c5State).notifierArgs =
      [{ c5Req with added_at := some "T" }] ∧
    ({ c5Req with added_at := some "T" } : Request).requested_by
      = some "alice" ∧
    ({ c5Req with added_at := some "T" } : Request).title = "The Matrix" ∧
    ({ c5Req with added_at := some "T" } : Request).poster_path
      = some "/p.jpg" ∧
    ({ c5Req with added_at := some "T" } : Request).media_type = "movie" ∧
    ({ c5Req with added_at := some "T" } : Request).tmdb_id = 603 ∧
    (markAsAddedLambda "T" 603 "movie" c5State).1 = true := by
  decide

/-! ## Decimal-string lemmas -/

theorem natToCharsFuel_congr :
    ∀ (n f₁ f₂ : Nat), n < f₁ → n < f₂ → ∀ acc,
      natToCharsFuel f₁ n acc = natToCharsFuel f₂ n acc := by
  intro n
  induction n using Nat.strong_induction_on with
  | _ n ih =>
    intro f₁ f₂ h₁ h₂ acc
    match f₁, f₂, h₁, h₂ with
    | f₁ + 1, f₂ + 1, h₁, h₂ =>
      simp only [natToCharsFuel]
      split
      · rfl
      · next h10 =>
        exact ih (n / 10) (by omega) f₁ f₂ (by omega) (by omega) _

theorem natToCharsFuel_append (fuel : Nat) :
    ∀ (n : Nat) (acc : List Char),
      natToCharsFuel fuel n acc = natToCharsFuel fuel n [] ++ acc := by
  induction fuel with
  | zero => intro n acc; rfl
  | succ fuel ih =>
    intro n acc
    simp only [natToCharsFuel]
    split
    · rfl
    · rw [ih (n / 10), ih (n / 10) (Char.ofNat (48 + n % 10) :: [])]
      simp

theorem natToChars_lt (n : Nat) (h : n < 10) :
    natToChars n = [Char.ofNat (48 + n % 10)] := by
  unfold natToChars natToCharsFuel
  rw [if_pos h]

theorem natToChars_ge (n : Nat) (h : ¬ n < 10) :
    natToChars n = natToChars (n / 10) ++ [Char.ofNat (48 + n % 10)] := by
  conv_lhs => unfold natToChars natToCharsFuel
  rw [if_neg h]
  rw [natToCharsFuel_congr (n / 10) n (n / 10 + 1) (by omega) (by omega)]
  rw [natToCharsFuel_append]
  rfl

theorem natToChars_digits (n : Nat) :
    ∀ c ∈ natToChars n, ∃ k, k < 10 ∧ c = Char.ofNat (48 + k) := by
  induction n using Nat.strong_induction_on with
  | _ n ih =>
    by_cases h : n < 10
    · rw [natToChars_lt n h]
      intro c hc
      rcases List.mem_singleton.mp hc with rfl
      exact ⟨n % 10, by omega, rfl⟩
    · rw [natToChars_ge n h]
      intro c hc
      rcases List.mem_append.mp hc with hc | hc
      · exact ih (n / 10) (by omega) c hc
      · rcases List.mem_singleton.mp hc with rfl
        exact ⟨n % 10, by omega, rfl⟩

theorem natToChars_ne_nil (n : Nat) : natToChars n ≠ [] := by
  by_cases h : n < 10
  · rw [natToChars_lt n h]; simp
  · rw [natToChars_ge n h]; simp

theorem digit_char_ne_dot : ∀ k, k < 10 → Char.ofNat (48 + k) ≠ '.' := by
  decide

theorem natToChars_no_dot (n : Nat) : ∀ c ∈ natToChars n, c ≠ '.' := by
  intro c hc
  rcases natToChars_digits n c hc with ⟨k, hk, rfl⟩
  exact digit_char_ne_dot k hk

theorem digitVal?_digit (k : Nat) (h : k < 10) :
    digitVal? (Char.ofNat (48 + k)) = some k := by
  revert h
  revert k
  decide

theorem charsToNatCore_append (a : Nat) (xs : List Char) :
    ∀ ys, charsToNatCore a (xs ++ ys) =
      match charsToNatCore a xs with
      | some v => charsToNatCore v ys
      | none => none := by
  induction xs generalizing a with
  | nil => intro ys; rfl
  | cons c cs ih =>
    intro ys
    simp only [List.cons_append, charsToNatCore]
    cases digitVal? c with
    | some d => exact ih (a * 10 + d) ys
    | none => rfl

theorem charsToNatCore_natToChars (n : Nat) :
    ∀ a, charsToNatCore a (natToChars n) =
      some (a * 10 ^ (natToChars n).length + n) := by
  induction n using Nat.strong_induction_on with
  | _ n ih =>
    intro a
    by_cases h : n < 10
    · rw [natToChars_lt n h]
      simp only [charsToNatCore, Nat.mod_eq_of_lt h, digitVal?_digit n h,
        List.length_singleton]
      norm_num
    · rw [natToChars_ge n h]
      rw [charsToNatCore_append]
      rw [ih (n / 10) (by omega) a]
      simp only [charsToNatCore, digitVal?_digit (n % 10) (by omega)]
      congr 1
      simp only [List.length_append, List.length_singleton]
      rw [pow_succ]
      have := Nat.div_add_mod n 10
      ring_nf
      omega

theorem charsToNat?_natToChars (n : Nat) :
    charsToNat? (natToChars n) = some n := by
  unfold charsToNat?
  rw [if_neg (by simp [List.isEmpty_iff, natToChars_ne_nil n])]
  rw [charsToNatCore_natToChars n 0]
  simp

/-! ## Dot-splitting lemmas -/

theorem splitDots_no_dot (a : List Char) (h : ∀ c ∈ a, c ≠ '.') :
    splitDots a = [a] := by
  induction a with
  | nil => rfl
  | cons c cs ih =>
    simp only [splitDots]
    rw [if_neg (h c (List.mem_cons_self c cs))]
    rw [ih (fun x hx => h x (List.mem_cons_of_mem c hx))]

theorem splitDots_append (a rest : List Char) (h : ∀ c ∈ a, c ≠ '.') :
    splitDots (a ++ '.' :: rest) = a :: splitDots rest := by
  induction a with
  | nil => simp [splitDots]
  | cons c cs ih =>
    simp only [List.cons_append, splitDots]
    rw [if_neg (h c (List.mem_cons_self c cs))]
    simp only [List.append_eq]
    rw [ih (fun x hx => h x (List.mem_cons_of_mem c hx))]

/-! ## Base64url lemmas -/

theorem b64Val?_b64Char : ∀ i, i < 64 → b64Val? (b64Char i) = some i := by
  decide

theorem b64Char_ne_dot : ∀ i, b64Char i ≠ '.' := by
  intro i
  by_cases h : i < 64
  · exact (by decide : ∀ j, j < 64 → b64Char j ≠ '.') i h
  · unfold b64Char
    rw [List.getD_eq_default]
    · decide
    · have hlen : b64Alphabet.length = 64 := by decide
      omega

theorem b64urlEncode_mem :
    ∀ (bs : List Nat), ∀ c ∈ b64urlEncode bs, ∃ i, c = b64Char i
  | [] => by simp [b64urlEncode]
  | [a] => by
    intro c hc
    simp only [b64urlEncode, List.mem_cons, List.not_mem_nil, or_false] at hc
    rcases hc with rfl | rfl <;> exact ⟨_, rfl⟩
  | [a, b] => by
    intro c hc
    simp only [b64urlEncode, List.mem_cons, List.not_mem_nil, or_false] at hc
    rcases hc with rfl | rfl | rfl <;> exact ⟨_, rfl⟩
  | a :: b :: c :: rest => by
    intro d hd
    simp only [b64urlEncode, List.mem_cons] at hd
    rcases hd with rfl | rfl | rfl | rfl | hd
    · exact ⟨_, rfl⟩
    · exact ⟨_, rfl⟩
    · exact ⟨_, rfl⟩
    · exact ⟨_, rfl⟩
    · exact b64urlEncode_mem rest d hd

theorem b64urlEncode_no_dot (bs : List Nat) :
    ∀ c ∈ b64urlEncode bs, c ≠ '.' := by
  intro c hc
  rcases b64urlEncode_mem bs c hc with ⟨i, rfl⟩
  exact b64Char_ne_dot i

theorem b64urlEncode_ne_nil (bs : List Nat) (h : bs ≠ []) :
    b64urlEncode bs ≠ [] := by
  match bs, h with
  | [a], _ => simp [b64urlEncode]
  | [a, b], _ => simp [b64urlEncode]
  | a :: b :: c :: rest, _ => simp [b64urlEncode]

theorem b64urlDecode_encode :
    ∀ (bs : List Nat), (∀ b ∈ bs, b < 256) →
      b64urlDecode (b64urlEncode bs) = some bs
  | [], _ => rfl
  | [a], h => by
    have ha : a < 256 := h a (by simp)
    simp only [b64urlEncode, b64urlDecode]
    rw [b64Val?_b64Char (a / 4) (by omega), b64Val?_b64Char (a % 4 * 16) (by omega)]
    have e1 : a / 4 * 4 + a % 4 * 16 / 16 = a := by omega
    show some [a / 4 * 4 + a % 4 * 16 / 16] = some [a]
    rw [e1]
  | [a, b], h => by
    have ha : a < 256 := h a (by simp)
    have hb : b < 256 := h b (by simp)
    simp only [b64urlEncode, b64urlDecode]
    rw [b64Val?_b64Char (a / 4) (by omega),
      b64Val?_b64Char (a % 4 * 16 + b / 16) (by omega),
      b64Val?_b64Char (b % 16 * 4) (by omega)]
    have e1 : a / 4 * 4 + (a % 4 * 16 + b / 16) / 16 = a := by omega
    have e2 : (a % 4 * 16 + b / 16) % 16 * 16 + b % 16 * 4 / 4 = b := by omega
    show some [a / 4 * 4 + (a % 4 * 16 + b / 16) / 16,
      (a % 4 * 16 + b / 16) % 16 * 16 + b % 16 * 4 / 4] = some [a, b]
    rw [e1, e2]
  | a :: b :: c :: rest, h => by
    have ha : a < 256 := h a (by simp)
    have hb : b < 256 := h b (by simp)
    have hc : c < 256 := h c (by simp)
    have hrest : ∀ x ∈ rest, x < 256 := fun x hx => h x (by simp [hx])
    show b64urlDecode (b64Char (a / 4) :: b64Char (a % 4 * 16 + b / 16) ::
      b64Char (b % 16 * 4 + c / 64) :: b64Char (c % 64) :: b64urlEncode rest)
      = some (a :: b :: c :: rest)
    simp only [b64urlDecode]
    rw [b64Val?_b64Char (a / 4) (by omega),
      b64Val?_b64Char (a % 4 * 16 + b / 16) (by omega),
      b64Val?_b64Char (b % 16 * 4 + c / 64) (by omega),
      b64Val?_b64Char (c % 64) (by omega),
      b64urlDecode_encode rest hrest]
    have e1 : a / 4 * 4 + (a % 4 * 16 + b / 16) / 16 = a := by omega
    have e2 : (a % 4 * 16 + b / 16) % 16 * 16 + (b % 16 * 4 + c / 64) / 4 = b := by
      omega
    have e3 : (b % 16 * 4 + c / 64) % 4 * 64 + c % 64 = c := by omega
    show some ([a / 4 * 4 + (a % 4 * 16 + b / 16) / 16,
      (a % 4 * 16 + b / 16) % 16 * 16 + (b % 16 * 4 + c / 64) / 4,
      (b % 16 * 4 + c / 64) % 4 * 64 + c % 64] ++ rest) = some (a :: b :: c :: rest)
    rw [e1, e2, e3]
    rfl

/-! ## Session-token lemmas -/

/-- The legacy two-part token form `<ts>.<sig>`. -/
def legacyToken (mac : List Char → List Nat) (ts : Nat) : List Char :=
  natToChars ts ++ '.' :: b64urlEncode (mac (natToChars ts))

theorem splitDots_create (mac : List Char → List Nat) (now : Nat)
    (name : List Nat) :
    splitDots (createSessionToken mac now name) =
      [natToChars now,
       if name.isEmpty then [] else b64urlEncode name,
       b64urlEncode (mac (natToChars now ++ '.' ::
         (if name.isEmpty then [] else b64urlEncode name)))] := by
  have hnb : ∀ c ∈ (if name.isEmpty then [] else b64urlEncode name), c ≠ '.' := by
    split
    · simp
    · exact b64urlEncode_no_dot name
  unfold createSessionToken
  dsimp only
  rw [List.append_assoc, List.cons_append]
  rw [splitDots_append _ _ (natToChars_no_dot now)]
  rw [splitDots_append _ _ hnb]
  rw [splitDots_no_dot _ (b64urlEncode_no_dot _)]

theorem verify_create (mac : List Char → List Nat) (now : Nat)
    (name : List Nat) (T : Int) :
    verifySessionToken mac T (createSessionToken mac now name) =
      decide (T - (now : Int) ≤ SESSION_DURATION_SECONDS) := by
  unfold verifySessionToken
  rw [splitDots_create]
  dsimp only
  simp only [charsToNat?_natToChars now]
  by_cases hT : T - (now : Int) > SESSION_DURATION_SECONDS
  · rw [if_pos hT]
    have : ¬(T - (now : Int) ≤ SESSION_DURATION_SECONDS) := by omega
    simp [this]
  · rw [if_neg hT]
    have hle : T - (now : Int) ≤ SESSION_DURATION_SECONDS := by omega
    simp [hle]

theorem getUser_create (mac : List Char → List Nat) (now : Nat)
    (name : List Nat) (hne : name ≠ []) (hb : ∀ b ∈ name, b < 256) :
    getUserFromToken (createSessionToken mac now name) = some name := by
  unfold getUserFromToken
  rw [splitDots_create]
  have hE : name.isEmpty = false := by
    cases name
    · exact absurd rfl hne
    · rfl
  rw [hE]
  dsimp only
  rw [if_neg (by simp [List.isEmpty_iff, b64urlEncode_ne_nil name hne])]
  exact b64urlDecode_encode name hb

theorem verify_legacy (mac : List Char → List Nat) (ts : Nat) (T : Int) :
    verifySessionToken mac T (legacyToken mac ts) =
      decide (T - (ts : Int) ≤ SESSION_DURATION_SECONDS) := by
  unfold verifySessionToken legacyToken
  rw [splitDots_append _ _ (natToChars_no_dot ts)]
  rw [splitDots_no_dot _ (b64urlEncode_no_dot _)]
  dsimp only
  simp only [charsToNat?_natToChars ts]
  by_cases hT : T - (ts : Int) > SESSION_DURATION_SECONDS
  · rw [if_pos hT]
    have : ¬(T - (ts : Int) ≤ SESSION_DURATION_SECONDS) := by omega
    simp [this]
  · rw [if_neg hT]
    have hle : T - (ts : Int) ≤ SESSION_DURATION_SECONDS := by omega
    simp [hle]

theorem getUser_legacy (mac : List Char → List Nat) (ts : Nat) :
    getUserFromToken (legacyToken mac ts) = none := by
  unfold getUserFromToken legacyToken
  rw [splitDots_append _ _ (natToChars_no_dot ts)]
  rw [splitDots_no_dot _ (b64urlEncode_no_dot _)]

/-! ## C6: the token round-trip -/

/-- A fixed stand-in for `HMAC-SHA256(app_secret_key, ·)`; the token
theorems quantify over every such function, this one instantiates the
witnesses. -/
def c6Mac : List Char → List Nat := fun p => [p.length % 256, 7, 42]

/-- C6 counterexample: a token created at `now = 1000` verifies at
`now + Δ` for `Δ = -1 < 0` — `verify_session_token` has no lower bound
on `time.time() - timestamp`, so a future-dated token is accepted. This
refutes "verifies iff 0 ≤ Δ ≤ 30 days" in the only-if direction. -/
theorem C6_negative_delta_verifies :
    verifySessionToken c6Mac (1000 + (-1 : Int))
      (createSessionToken c6Mac 1000 [97]) = true ∧ ¬((0 : Int) ≤ -1) := by
  constructor
  · decide
  · decide

/-- C6 amended: for every key/HMAC, name and creation instant `now`, a
session token created at `now` verifies at `now + Δ` iff
`Δ ≤ 30 days` (no lower bound: clock skew to the past is accepted); the
name is extractable by `get_user_from_token` from any created token with
a nonempty name; and the legacy two-part form `timestamp.signature`
verifies under the same 30-day rule. -/
theorem C6_token_roundtrip_amended (mac : List Char → List Nat) (now : Nat)
    (name : List Nat) (Δ : Int) (hb : ∀ b ∈ name, b < 256) :
    (verifySessionToken mac ((now : Int) + Δ)
        (createSessionToken mac now name) = true ↔
      Δ ≤ SESSION_DURATION_SECONDS)
    ∧ (name ≠ [] →
        getUserFromToken (createSessionToken mac now name) = some name)
    ∧ (∀ ts : Nat, verifySessionToken mac ((ts : Int) + Δ)
        (legacyToken mac ts) = true ↔ Δ ≤ SESSION_DURATION_SECONDS) := by
  refine ⟨?_, fun hne => getUser_create mac now name hne hb, ?_⟩
  · rw [verify_create]
    simp only [decide_eq_true_eq]
    omega
  · intro ts
    rw [verify_legacy]
    simp only [decide_eq_true_eq]
    omega

/-- Witness: the amended round-trip at `mac = c6Mac`, `now = 1000`,
`name = "a"`, `Δ = 5`. -/
theorem C6_token_roundtrip_amended_witness :
    (∀ b ∈ [(97 : Nat)], b < 256) ∧
    verifySessionToken c6Mac ((1000 : Int) + 5)
      (createSessionToken c6Mac 1000 [97]) = true ∧
    getUserFromToken (createSessionToken c6Mac 1000 [97]) = some [97] ∧
    verifySessionToken c6Mac ((2000 : Int) + 5) (legacyToken c6Mac 2000) = true :=
  ⟨by decide,
   (C6_token_roundtrip_amended c6Mac 1000 [97] 5 (by decide)).1.mpr (by decide),
   (C6_token_roundtrip_amended c6Mac 1000 [97] 5 (by decide)).2.1 (by decide),
   ((C6_token_roundtrip_amended c6Mac 1000 [97] 5 (by decide)).2.2 2000).mpr
     (by decide)⟩

/-! ## C7: rate limit check precedes PBKDF2 -/

/-- C7: with rate limiting enabled, (i) a full bucket yields 429 and the
PBKDF2 derivation is never executed; (ii) whenever PBKDF2 does run, the
timestamp-skew check already passed and (when enabled) the rate-limit
check already allowed the request; (iii) the rate-limit check is the
first thing the handler does. -/
theorem C7_429_before_pbkdf2 (maxA window : Nat) (hashOk nameOk : Bool)
    (now ts : Int) (bucket : Option RLEntry) :
    ((checkRateLimit bucket now maxA window).1 = false →
      (verifyAuth true maxA window hashOk nameOk now ts bucket).statusCode = 429 ∧
      AuthEvent.pbkdf2 ∉
        (verifyAuth true maxA window hashOk nameOk now ts bucket).events)
    ∧ (∀ enabled, AuthEvent.pbkdf2 ∈
          (verifyAuth enabled maxA window hashOk nameOk now ts bucket).events →
        (now - ts).natAbs ≤ AUTH_TIME_WINDOW_SECONDS ∧
        (enabled = true → (checkRateLimit bucket now maxA window).1 = true))
    ∧ (verifyAuth true maxA window hashOk nameOk now ts bucket).events.head?
        = some AuthEvent.rateCheck := by
  refine ⟨?_, ?_, ?_⟩
  · intro hdenied
    unfold verifyAuth
    rw [if_pos (by simp [hdenied])]
    exact ⟨rfl, by simp⟩
  · intro enabled hmem
    unfold verifyAuth at hmem
    by_cases h1 : (enabled && !(checkRateLimit bucket now maxA window).1) = true
    · rw [if_pos h1] at hmem
      cases enabled <;> simp at hmem
    · rw [if_neg h1] at hmem
      by_cases h2 : (now - ts).natAbs > AUTH_TIME_WINDOW_SECONDS
      · rw [if_pos h2] at hmem
        cases enabled <;> simp at hmem
      · refine ⟨by omega, fun he => ?_⟩
        subst he
        simpa using h1
  · unfold verifyAuth
    repeat' split
    all_goals first
      | rfl
      | simp_all

def c7Bucket : RLEntry :=
  { failed_attempts := 5, first_attempt := 100, last_attempt := 140, ttl := 1060 }

/-- Witness for C7: a full bucket (5 failures at max 5, inside the
900-second window) yields 429 with no PBKDF2 event. -/
theorem C7_429_before_pbkdf2_witness :
    (checkRateLimit (some c7Bucket) 200 5 900).1 = false ∧
    (verifyAuth true 5 900 true true 200 200 (some c7Bucket)).statusCode = 429 ∧
    AuthEvent.pbkdf2 ∉
      (verifyAuth true 5 900 true true 200 200 (some c7Bucket)).events :=
  ⟨by decide,
   ((C7_429_before_pbkdf2 5 900 true true 200 200 (some c7Bucket)).1 (by decide)).1,
   ((C7_429_before_pbkdf2 5 900 true true 200 200 (some c7Bucket)).1 (by decide)).2⟩

/-! ## C8: the sliding-window rate limiter -/

/-- A run of failed attempts inside the window accumulates exactly one
count per attempt without moving the window anchor. -/
theorem recordMany_counts (window : Nat) :
    ∀ (times : List Int) (e : RLEntry),
      (∀ t ∈ times, t - e.first_attempt ≤ (window : Int)) →
      ∃ e', recordMany times window (some e) = some e' ∧
        e'.failed_attempts = e.failed_attempts + times.length ∧
        e'.first_attempt = e.first_attempt := by
  intro times
  induction times with
  | nil => exact fun e _ => ⟨e, rfl, by simp, rfl⟩
  | cons t rest ih =>
    intro e h
    have ht : t - e.first_attempt ≤ (window : Int) := h t (by simp)
    have hstep : (recordFailedAttempt (some e) t window).2 =
        some { e with
                failed_attempts := e.failed_attempts + 1
                last_attempt := t
                ttl := t + window + 60 } := by
      unfold recordFailedAttempt
      rw [if_neg (by dsimp only; omega)]
    rcases ih { e with
        failed_attempts := e.failed_attempts + 1
        last_attempt := t
        ttl := t + window + 60 }
        (fun u hu => h u (by simp [hu])) with ⟨e', he', hc, hf⟩
    refine ⟨e', ?_, ?_, hf⟩
    · show recordMany rest window (recordFailedAttempt (some e) t window).2 = some e'
      rw [hstep]
      exact he'
    · rw [hc]
      simp only [List.length_cons]
      omega

/-- C8: the check answers allowed on an absent bucket, allowed on an
expired window, denied exactly when the counter has reached the maximum
inside the window; consequently a bucket filled by `max_attempts`
recorded failures keeps denying for the rest of its window, and a
successful auth (which deletes the bucket) restores allowed. -/
theorem C8_rate_limit_correct (now : Int) (maxA window : Nat) :
    (checkRateLimit none now maxA window = (true, maxA))
    ∧ (∀ e : RLEntry, now - e.first_attempt > (window : Int) →
        checkRateLimit (some e) now maxA window = (true, maxA))
    ∧ (∀ e : RLEntry, ¬(now - e.first_attempt > (window : Int)) →
        ((checkRateLimit (some e) now maxA window).1 = false ↔
          e.failed_attempts ≥ maxA))
    ∧ (∀ e : RLEntry, e.failed_attempts ≥ maxA →
        ∀ t : Int, t - e.first_attempt ≤ (window : Int) →
          (checkRateLimit (some e) t maxA window).1 = false)
    ∧ (∀ (t0 : Int) (rest : List Int),
        (∀ t ∈ rest, t - t0 ≤ (window : Int)) →
        ∃ e', recordMany (t0 :: rest) window none = some e' ∧
          e'.failed_attempts = rest.length + 1 ∧ e'.first_attempt = t0 ∧
          (rest.length + 1 ≥ maxA → ∀ t : Int, t - t0 ≤ (window : Int) →
            (checkRateLimit (some e') t maxA window).1 = false))
    ∧ (∀ b : Option RLEntry,
        checkRateLimit (clearRateLimit b) now maxA window = (true, maxA)) := by
  refine ⟨rfl, ?_, ?_, ?_, ?_, fun _ => rfl⟩
  · intro e he
    show (if now - e.first_attempt > (window : Int) then ((true, maxA) : Bool × Nat)
      else if e.failed_attempts ≥ maxA then (false, 0)
      else (true, maxA - e.failed_attempts)) = (true, maxA)
    rw [if_pos he]
  · intro e he
    show (if now - e.first_attempt > (window : Int) then ((true, maxA) : Bool × Nat)
      else if e.failed_attempts ≥ maxA then (false, 0)
      else (true, maxA - e.failed_attempts)).1 = false ↔ e.failed_attempts ≥ maxA
    rw [if_neg he]
    by_cases hc : e.failed_attempts ≥ maxA
    · rw [if_pos hc]
      simpa using hc
    · rw [if_neg hc]
      simpa using hc
  · intro e hfull t ht
    show (if t - e.first_attempt > (window : Int) then ((true, maxA) : Bool × Nat)
      else if e.failed_attempts ≥ maxA then (false, 0)
      else (true, maxA - e.failed_attempts)).1 = false
    rw [if_neg (by omega), if_pos hfull]
  · intro t0 rest h
    have hfirst : (recordFailedAttempt none t0 window).2 =
        some { failed_attempts := 1, first_attempt := t0,
               last_attempt := t0, ttl := t0 + window + 60 } := by
      unfold recordFailedAttempt
      rw [if_neg (by dsimp only; omega)]
    rcases recordMany_counts window rest
        { failed_attempts := 1, first_attempt := t0,
          last_attempt := t0, ttl := t0 + window + 60 }
        (fun u hu => h u hu) with ⟨e', he', hc, hf⟩
    dsimp only at hc hf
    refine ⟨e', ?_, by omega, hf, ?_⟩
    · show recordMany rest window (recordFailedAttempt none t0 window).2 = some e'
      rw [hfirst]
      exact he'
    · intro hmax t ht
      show (if t - e'.first_attempt > (window : Int) then ((true, maxA) : Bool × Nat)
        else if e'.failed_attempts ≥ maxA then (false, 0)
        else (true, maxA - e'.failed_attempts)).1 = false
      rw [if_neg (by rw [hf]; omega), if_pos (by omega)]

def c8Times : List Int := [101, 102]

/-- Witness for C8: three failures at t = 100, 101, 102 with
`max_attempts = 3`, `window = 900` produce a full bucket that still
denies at t = 1000 (elapsed 900 ≤ window). -/
theorem C8_rate_limit_correct_witness :
    (∀ t ∈ c8Times, t - 100 ≤ (900 : Int)) ∧
    ∃ e', recordMany (100 :: c8Times) 900 none = some e' ∧
      e'.failed_attempts = c8Times.length + 1 ∧ e'.first_attempt = 100 ∧
      (c8Times.length + 1 ≥ 3 → ∀ t : Int, t - 100 ≤ (900 : Int) →
        (checkRateLimit (some e') t 3 900).1 = false) :=
  ⟨by decide,
   (C8_rate_limit_correct 0 3 900).2.2.2.2.1 100 c8Times (by decide)⟩

/-! ## C9: the Sonarr/Radarr feeds -/

theorem insertByCreated_perm (r : Request) (l : List Request) :
    List.Perm (insertByCreated r l) (r :: l) := by
  induction l with
  | nil => exact List.Perm.refl _
  | cons x xs ih =>
    unfold insertByCreated
    split
    · exact List.Perm.refl _
    · exact (ih.cons x).trans (List.Perm.swap r x xs)

theorem sortByCreatedDesc_perm (l : List Request) :
    List.Perm (sortByCreatedDesc l) l := by
  induction l with
  | nil => exact List.Perm.refl _
  | cons x xs ih =>
    show List.Perm (insertByCreated x (sortByCreatedDesc xs)) (x :: xs)
    exact (insertByCreated_perm x _).trans (ih.cons x)

/-- The rendering of one Sonarr list element. -/
def renderSonarr (r : Request) : Option SonarrItem :=
  match r.tvdb_id with
  | some v => if v ≠ 0 then some ⟨toString v⟩ else none
  | none => none

/-- C9: (i) every element of `/list/radarr` and (ii) every element of
`/list/sonarr` is the rendering of a request with `added_at = ∅` (no
fulfilled request is ever included); (iii) `/list/sonarr` is exactly
(as a multiset; the endpoint orders by `created_at`) the pending tv
requests with a truthy `tvdb_id`, each rendered as an object with the
single string field `tvdbId`. -/
theorem C9_feed_filter (s : DBState) :
    (∀ it ∈ listRadarr s, ∃ r ∈ s.requests, r.media_type = "movie" ∧
      r.added_at = none ∧ it = renderRadarr r)
    ∧ (∀ it ∈ listSonarr s, ∃ r ∈ s.requests, r.media_type = "tv" ∧
      r.added_at = none ∧ ∃ v : Int, r.tvdb_id = some v ∧ v ≠ 0 ∧
        it = ⟨toString v⟩)
    ∧ List.Perm (listSonarr s)
        ((s.requests.filter
            (fun r => r.added_at == none && r.media_type == "tv")).filterMap
          renderSonarr) := by
  have hperm : ∀ mt, List.Perm (getAllRequests s mt)
      (s.requests.filter (fun r => r.media_type == mt)) :=
    fun mt => sortByCreatedDesc_perm _
  refine ⟨?_, ?_, ?_⟩
  · intro it hit
    unfold listRadarr at hit
    rcases List.mem_map.mp hit with ⟨r, hr, rfl⟩
    rcases List.mem_filter.mp hr with ⟨hr1, hr2⟩
    have hr3 := (hperm "movie").mem_iff.mp hr1
    rcases List.mem_filter.mp hr3 with ⟨hmem, hmt⟩
    exact ⟨r, hmem, by simpa using hmt, by simpa using hr2, rfl⟩
  · intro it hit
    unfold listSonarr at hit
    rcases List.mem_filterMap.mp hit with ⟨r, hr, hrend⟩
    rcases List.mem_filter.mp hr with ⟨hr1, hr2⟩
    have hr3 := (hperm "tv").mem_iff.mp hr1
    rcases List.mem_filter.mp hr3 with ⟨hmem, hmt⟩
    refine ⟨r, hmem, by simpa using hmt, by simpa using hr2, ?_⟩
    cases hv : r.tvdb_id with
    | none => rw [hv] at hrend; exact absurd hrend (by simp)
    | some v =>
      rw [hv] at hrend
      dsimp only at hrend
      by_cases h0 : v ≠ 0
      · rw [if_pos h0] at hrend
        exact ⟨v, rfl, h0, by simpa using hrend.symm⟩
      · rw [if_neg h0] at hrend
        exact absurd hrend (by simp)
  · unfold listSonarr
    have h1 : List.Perm
        ((getAllRequests s "tv").filter (fun r => r.added_at == none))
        ((s.requests.filter (fun r => r.media_type == "tv")).filter
          (fun r => r.added_at == none)) :=
      (hperm "tv").filter _
    have h2 := h1.filterMap renderSonarr
    refine h2.trans ?_
    rw [List.filter_filter]

/-- Witness instances for C9. (The theorem's statement has hypotheses
only inside the universally quantified membership implications; this
instantiates them at a concrete store.) -/
def c9State : DBState :=
  { requests :=
      [{ media_type := "tv", tmdb_id := 1, title := "A", tvdb_id := some 111 },
       { media_type := "tv", tmdb_id := 2, title := "B", tvdb_id := some 222,
         added_at := some "X" },
       { media_type := "tv", tmdb_id := 3, title := "C" },
       { media_type := "movie", tmdb_id := 5, title := "M", year := some 2024,
         imdb_id := some "tt1" }] }

def c9Movie : Request :=
  { media_type := "movie", tmdb_id := 5, title := "M", year := some 2024,
    imdb_id := some "tt1" }

theorem C9_feed_filter_witness :
    ({ tvdbId := "111" } : SonarrItem) ∈ listSonarr c9State ∧
    (∃ r ∈ c9State.requests, r.media_type = "tv" ∧ r.added_at = none ∧
      ∃ v : Int, r.tvdb_id = some v ∧ v ≠ 0 ∧
        ({ tvdbId := "111" } : SonarrItem) = ⟨toString v⟩) ∧
    (renderRadarr c9Movie ∈ listRadarr c9State ∧
      ∃ r ∈ c9State.requests, r.media_type = "movie" ∧ r.added_at = none ∧
        renderRadarr c9Movie = renderRadarr r) :=
  ⟨by decide,
   (C9_feed_filter c9State).2.1 { tvdbId := "111" } (by decide),
   by decide,
   (C9_feed_filter c9State).1 _ (by decide)⟩

/-! ## C10: nameless tokens authenticate, but push subscribe rejects -/

theorem getUser_create_empty (mac : List Char → List Nat) (now : Nat) :
    getUserFromToken (createSessionToken mac now []) = none := by
  unfold getUserFromToken
  rw [splitDots_create]
  rfl

/-- C10: a session token with no name — the legacy two-part form, or a
three-part token with an empty name field — is accepted by
`verify_session_token` (and therefore authenticates every
Bearer-protected data endpoint), yet `POST /api/push/subscribe` and
`DELETE /api/push/subscribe` answer 401 for the very same token,
because `get_user_from_token` returns no user for any token without a
nonempty three-part name component. -/
theorem C10_nameless_token_verifies_but_push_401
    (mac : List Char → List Nat) (ts : Nat) (T : Int)
    (h : T - (ts : Int) ≤ SESSION_DURATION_SECONDS) :
    (verifySessionToken mac T (legacyToken mac ts) = true ∧
      getUserFromToken (legacyToken mac ts) = none ∧
      subscribePushStatus (legacyToken mac ts) = 401 ∧
      unsubscribePushStatus (legacyToken mac ts) = 401)
    ∧ (verifySessionToken mac T (createSessionToken mac ts []) = true ∧
      getUserFromToken (createSessionToken mac ts []) = none ∧
      subscribePushStatus (createSessionToken mac ts []) = 401 ∧
      unsubscribePushStatus (createSessionToken mac ts []) = 401) := by
  have hleg := getUser_legacy mac ts
  have hemp := getUser_create_empty mac ts
  refine ⟨⟨?_, hleg, ?_, ?_⟩, ⟨?_, hemp, ?_, ?_⟩⟩
  · rw [verify_legacy]
    simpa using h
  · unfold subscribePushStatus
    rw [hleg]
  · unfold unsubscribePushStatus
    rw [hleg]
  · rw [verify_create]
    simpa using h
  · unfold subscribePushStatus
    rw [hemp]
  · unfold unsubscribePushStatus
    rw [hemp]

/-- Witness for C10 at `ts = 50`, verification time `T = 60`. -/
theorem C10_nameless_token_witness :
    ((60 : Int) - (50 : Nat) ≤ SESSION_DURATION_SECONDS) ∧
    verifySessionToken c6Mac 60 (legacyToken c6Mac 50) = true ∧
    subscribePushStatus (legacyToken c6Mac 50) = 401 ∧
    verifySessionToken c6Mac 60 (createSessionToken c6Mac 50 []) = true ∧
    subscribePushStatus (createSessionToken c6Mac 50 []) = 401 :=
  ⟨by decide,
   (C10_nameless_token_verifies_but_push_401 c6Mac 50 60 (by decide)).1.1,
   (C10_nameless_token_verifies_but_push_401 c6Mac 50 60 (by decide)).1.2.2.1,
   (C10_nameless_token_verifies_but_push_401 c6Mac 50 60 (by decide)).2.1,
   (C10_nameless_token_verifies_but_push_401 c6Mac 50 60 (by decide)).2.2.2.1⟩

end Stellarr
